import Mathlib

/-!
Verification of the hand-gesture engine (OneEuroFilter and the two
GestureController variants) against its natural-language specification.

The JavaScript sources are shallowly embedded over `ℚ`.  JavaScript numbers
are IEEE doubles; all facts proved here are structural (which branch runs,
which state fields are written, exact algebraic identities such as
`lerp a a t = a`) and hence independent of floating-point rounding.  The
irrational library primitives (`Math.hypot`, `Math.sqrt`, `Math.acos`,
`Math.atan2`) are modelled as fields of an uninterpreted `JsMath` parameter:
no claim below depends on their actual values, only on comparisons of the
derived quantities, which appear as explicit hypotheses.  `Math.PI` is
embedded as the exact rational value of the IEEE double `3.141592653589793`.

One caveat is recorded where it matters: `ℚ` division by zero yields `0`
while JavaScript yields `±Infinity`/`NaN`.  The only claim that touches a
zero denominator (C1) is settled on a strictly negative `dt`, where `ℚ`
and JavaScript agree on every fact used (the assignment of `lastTime` and
the inequality of the output with the previous smoothed value).
-/

/-- Embedding of utils.js `clamp` (`Math.min(Math.max(value, min), max)`). -/
def clamp (value lo hi : ℚ) : ℚ :=
  Min.min (Max.max value lo) hi

/-- Embedding of utils.js `lerp`. -/
def lerp (a b t : ℚ) : ℚ :=
  a + (b - a) * t

/-- Exact rational value of the IEEE-754 double `Math.PI`. -/
def jsPI : ℚ :=
  884279719003555 / 281474976710656

/-- A 3D landmark point (utils.js point objects `{x, y, z}`). -/
structure Point where
  x : ℚ
  y : ℚ
  z : ℚ
  deriving Repr, DecidableEq

/-- A 2D point (palm centers, translation deltas). -/
structure Point2 where
  x : ℚ
  y : ℚ
  deriving Repr, DecidableEq

/-- The irrational JavaScript math primitives used by the sources, kept
uninterpreted: `Math.hypot`, `Math.sqrt`, `Math.acos`, `Math.atan2`.
Every theorem below is proved for an arbitrary interpretation; no claim
depends on the numeric behaviour of these functions. -/
structure JsMath where
  hypot : ℚ → ℚ → ℚ
  sqrt : ℚ → ℚ
  acos : ℚ → ℚ
  atan2 : ℚ → ℚ → ℚ

/-- Embedding of utils.js `distance2D` (`Math.hypot(a.x-b.x, a.y-b.y)`). -/
def distance2D (m : JsMath) (a b : Point) : ℚ :=
  m.hypot (a.x - b.x) (a.y - b.y)

/-- Embedding of utils.js `vectorFromPoints`. -/
def vectorFromPoints (a b : Point) : Point :=
  ⟨b.x - a.x, b.y - a.y, b.z - a.z⟩

/-- Embedding of utils.js `dot`. -/
def dot (a b : Point) : ℚ :=
  a.x * b.x + a.y * b.y + a.z * b.z

/-- Embedding of utils.js `magnitude` (`Math.sqrt(x²+y²+z²)`). -/
def magnitude (m : JsMath) (v : Point) : ℚ :=
  m.sqrt (v.x * v.x + v.y * v.y + v.z * v.z)

/-- Embedding of utils.js `angleBetween`; the `|| 1e-6` guard replaces a
zero magnitude product by `1e-6` (JavaScript falsiness of `0`). -/
def angleBetween (m : JsMath) (a b : Point) : ℚ :=
  let mag0 := magnitude m a * magnitude m b
  let mag := if mag0 = 0 then 1 / 1000000 else mag0
  m.acos (clamp (dot a b / mag) (-1) 1)

/-- State of utils.js `OneEuroFilter`: constructor parameters plus the
mutable fields `lastTime`, `xPrev`, `dxPrev` (all `null` at construction). -/
structure OneEuroFilter where
  freq : ℚ
  minCutoff : ℚ
  beta : ℚ
  dCutoff : ℚ
  lastTime : Option ℚ
  xPrev : Option ℚ
  dxPrev : Option ℚ
  deriving Repr, DecidableEq

/-- The `OneEuroFilter` constructor: records the parameters, all mutable
fields start at `null`. -/
def OneEuroFilter.create (freq minCutoff beta dCutoff : ℚ) : OneEuroFilter :=
  ⟨freq, minCutoff, beta, dCutoff, none, none, none⟩

/-- Embedding of `OneEuroFilter.alpha`: `tau = 1/(2π·cutoff)`,
`alpha = 1/(1 + tau/dt)`.  (The method reads nothing from `this`.) -/
def alphaCoeff (cutoff dt : ℚ) : ℚ :=
  let tau := 1 / (2 * jsPI * cutoff)
  1 / (1 + tau / dt)

/-- Embedding of `OneEuroFilter.filter(value, timestamp)`.  Returns the
updated filter state and the returned value.  Note the source has no
guard on `dt`: `lastTime` is overwritten unconditionally and `dt` is used
as a divisor whatever its sign. -/
def OneEuroFilter.filter (f : OneEuroFilter) (value timestamp : ℚ) :
    OneEuroFilter × ℚ :=
  match f.lastTime with
  | none =>
      ({ f with lastTime := some timestamp, xPrev := some value, dxPrev := some 0 },
        value)
  | some last =>
      let dt := (timestamp - last) / 1000
      let dx := match f.xPrev with
        | some xp => (value - xp) / dt
        | none => 0
      let alphaD := alphaCoeff f.dCutoff dt
      let dxHat := match f.dxPrev with
        | some dp => lerp dp dx alphaD
        | none => dx
      let cutoff := f.minCutoff + f.beta * |dxHat|
      let alpha := alphaCoeff cutoff dt
      let xHat := match f.xPrev with
        | some xp => lerp xp value alpha
        | none => value
      ({ f with lastTime := some timestamp, xPrev := some xHat, dxPrev := some dxHat },
        xHat)

/-- Feeding the constant value `v` to a filter at timestamps `ts 0, ts 1, …`;
returns the filter state and output after call `n`. -/
def filterConstRun (f : OneEuroFilter) (v : ℚ) (ts : ℕ → ℚ) : ℕ → OneEuroFilter × ℚ
  | 0 => f.filter v (ts 0)
  | n + 1 => (filterConstRun f v ts n).1.filter v (ts (n + 1))

theorem lerp_self (a t : ℚ) : lerp a a t = a := by
  simp [lerp]

theorem filterConstRun_fresh_eq (freq minCutoff beta dCutoff v : ℚ) (ts : ℕ → ℚ) :
    ∀ n, ((filterConstRun (OneEuroFilter.create freq minCutoff beta dCutoff) v ts n).1.xPrev
            = some v ∧
          (filterConstRun (OneEuroFilter.create freq minCutoff beta dCutoff) v ts n).1.lastTime
            = some (ts n)) ∧
         (filterConstRun (OneEuroFilter.create freq minCutoff beta dCutoff) v ts n).2 = v := by
  intro n
  induction n with
  | zero =>
      simp [filterConstRun, OneEuroFilter.create, OneEuroFilter.filter]
  | succ n ih =>
      obtain ⟨⟨hx, hl⟩, _⟩ := ih
      simp [filterConstRun, OneEuroFilter.filter, hl, hx, lerp_self]

/-- Claim C1: the spec requires `filter` to no-op on `dt ≤ 0`; the code has
no such guard.  Concrete failing run: `filter(1, 100)` then `filter(2, 50)`
(`dt = -0.05`).  The second call overwrites `lastTime` with the earlier
timestamp, overwrites the stored smoothed value, and returns a value
different from the previous smoothed value `1`. -/
theorem C1_filter_nonpositive_dt_mutates_state :
    ((OneEuroFilter.create 120 1 (7/1000) 1).filter 1 100).2 = 1 ∧
    ((OneEuroFilter.create 120 1 (7/1000) 1).filter 1 100).1.lastTime = some 100 ∧
    (((OneEuroFilter.create 120 1 (7/1000) 1).filter 1 100).1.filter 2 50).1.lastTime
      = some 50 ∧
    (((OneEuroFilter.create 120 1 (7/1000) 1).filter 1 100).1.filter 2 50).2 ≠ 1 ∧
    (((OneEuroFilter.create 120 1 (7/1000) 1).filter 1 100).1.filter 2 50).1.xPrev
      ≠ some 1 := by
  have h2 : (((OneEuroFilter.create 120 1 (7/1000) 1).filter 1 100).1.filter 2 50).2
      = 3601385841876064279955800217206 / 7234483039242155144053591321403 := by
    norm_num [OneEuroFilter.create, OneEuroFilter.filter, alphaCoeff, lerp, jsPI,
      abs, max_def]
  have h3 : (((OneEuroFilter.create 120 1 (7/1000) 1).filter 1 100).1.filter 2 50).1.xPrev
      = some (3601385841876064279955800217206 / 7234483039242155144053591321403) := by
    norm_num [OneEuroFilter.create, OneEuroFilter.filter, alphaCoeff, lerp, jsPI,
      abs, max_def]
  refine ⟨rfl, rfl, rfl, ?_, ?_⟩
  · rw [h2]; norm_num
  · rw [h3]
    intro h
    have := Option.some.inj h
    norm_num at this

/-- Claim C9: a fresh filter instance fed the same value repeatedly with
strictly increasing timestamps: the first call seeds the state with that
value, so every output equals the input; in particular the outputs converge
to the input and never overshoot past it. -/
theorem C9_constant_input_converges (freq minCutoff beta dCutoff v : ℚ) (ts : ℕ → ℚ)
    (_hmono : ∀ n, ts n < ts (n + 1)) :
    (∀ ε : ℚ, 0 < ε → ∃ N : ℕ, ∀ n, N ≤ n →
       |(filterConstRun (OneEuroFilter.create freq minCutoff beta dCutoff) v ts n).2 - v| < ε) ∧
    (∀ n,
       Min.min (filterConstRun (OneEuroFilter.create freq minCutoff beta dCutoff) v ts 0).2 v
         ≤ (filterConstRun (OneEuroFilter.create freq minCutoff beta dCutoff) v ts n).2 ∧
       (filterConstRun (OneEuroFilter.create freq minCutoff beta dCutoff) v ts n).2
         ≤ Max.max (filterConstRun (OneEuroFilter.create freq minCutoff beta dCutoff) v ts 0).2 v) := by
  have hout := fun n =>
    (filterConstRun_fresh_eq freq minCutoff beta dCutoff v ts n).2
  constructor
  · intro ε hε
    exact ⟨0, fun n _ => by simp [hout n, hε]⟩
  · intro n
    simp [hout n, hout 0]

theorem C9_constant_input_converges_witness :
    (∀ ε : ℚ, 0 < ε → ∃ N : ℕ, ∀ n, N ≤ n →
       |(filterConstRun (OneEuroFilter.create 120 1 (7/1000) 1) 5 (fun k => (k : ℚ)) n).2 - 5| < ε) ∧
    (∀ n,
       Min.min (filterConstRun (OneEuroFilter.create 120 1 (7/1000) 1) 5 (fun k => (k : ℚ)) 0).2 5
         ≤ (filterConstRun (OneEuroFilter.create 120 1 (7/1000) 1) 5 (fun k => (k : ℚ)) n).2 ∧
       (filterConstRun (OneEuroFilter.create 120 1 (7/1000) 1) 5 (fun k => (k : ℚ)) n).2
         ≤ Max.max (filterConstRun (OneEuroFilter.create 120 1 (7/1000) 1) 5 (fun k => (k : ℚ)) 0).2 5) :=
  C9_constant_input_converges 120 1 (7/1000) 1 5 (fun k => (k : ℚ))
    (by intro n; norm_num)

/-! ## The utils.js GestureController variant (src/src/utils.js lines 594-869) -/

namespace UtilsCtl

/-- A hand observation in the input contract's domain: the per-frame index
used as the tracking key, plus exactly 21 landmarks in anatomical order. -/
structure Hand where
  index : ℕ
  landmarks : Fin 21 → Point

def PINCH_ON : ℚ := 28/100

def PINCH_OFF : ℚ := 36/100

def DOUBLE_PINCH_WINDOW : ℚ := 320

def PALM_OPEN_THRESHOLD : ℚ := 28/10

def FIST_THRESHOLD : ℚ := 125/100

def HELP_HOLD_TIME : ℚ := 1000

def SWIPE_VELOCITY : ℚ := 7/10

def THUMBS_UP_ANGLE : ℚ := 9/10

def TIP_INDEXES : List (Fin 21) := [4, 8, 12, 16, 20]

/-- Per-hand tracking state.  The first thirteen fields are the literal
created by `analyzeHand` for an unseen hand; the remaining fields are
assigned on every `analyzeHand` call before any read (they are `undefined`
until the first call in JavaScript, so their initial values below are
never observed). -/
structure HandState where
  pinch : Bool
  pinchStartTime : ℚ
  lastPinchPosition : Option Point
  openPalmStart : ℚ
  fist : Bool
  lastCenter : Option Point2
  thumbsUp : Bool
  swipeLastTime : ℚ
  swipeVelocity : ℚ
  lastPinchRelease : ℚ
  pendingDoublePinch : Bool
  newPinch : Bool
  quickHelpShown : Bool
  pinchRatio : ℚ
  isOpenPalm : Bool
  isFist : Bool
  center : Point2
  indexTip : Point
  thumbTip : Point
  reference : ℚ
  deriving Repr, DecidableEq

/-- The default state literal of `analyzeHand` for a hand index not yet in
the tracking map. -/
def initHandState : HandState :=
  { pinch := false, pinchStartTime := 0, lastPinchPosition := none,
    openPalmStart := 0, fist := false, lastCenter := none, thumbsUp := false,
    swipeLastTime := 0, swipeVelocity := 0, lastPinchRelease := 0,
    pendingDoublePinch := false, newPinch := false, quickHelpShown := false,
    pinchRatio := 0, isOpenPalm := false, isFist := false, center := ⟨0, 0⟩,
    indexTip := ⟨0, 0, 0⟩, thumbTip := ⟨0, 0, 0⟩, reference := 0 }

/-- The hand-size reference scale: mean wrist-to-MCP distance with the
JavaScript `|| 0.15` fallback for a zero mean. -/
def referenceSpan (m : JsMath) (h : Hand) : ℚ :=
  let wrist := h.landmarks 0
  let s := (distance2D m wrist (h.landmarks 9) + distance2D m wrist (h.landmarks 5)
            + distance2D m wrist (h.landmarks 13)) / 3
  if s = 0 then 15/100 else s

/-- Normalized thumb-tip-to-index-tip distance (`pinchDistance / referenceSpan`). -/
def pinchRatioOf (m : JsMath) (h : Hand) : ℚ :=
  distance2D m (h.landmarks 8) (h.landmarks 4) / referenceSpan m h

/-- Mean normalized fingertip-to-wrist distance over the five tips. -/
def distanceAvgOf (m : JsMath) (h : Hand) : ℚ :=
  let wrist := h.landmarks 0
  let tips := TIP_INDEXES.map h.landmarks
  (tips.foldl (fun acc tip => acc + distance2D m tip wrist / referenceSpan m h) 0)
    / (tips.length : ℚ)

/-- Mean fingertip position (x/y only), as accumulated in `analyzeHand`. -/
def palmCenterOf (h : Hand) : Point2 :=
  let tips := TIP_INDEXES.map h.landmarks
  let acc := tips.foldl (fun (acc : Point2) tip => ⟨acc.x + tip.x, acc.y + tip.y⟩) ⟨0, 0⟩
  ⟨acc.x / (tips.length : ℚ), acc.y / (tips.length : ℚ)⟩

/-- Embedding of `GestureController.analyzeHand` minus the map access:
takes the looked-up (or default) state and returns the updated state that
`analyzeHand` stores back and returns.  The source's sequence of in-place
mutations is written as one record literal of per-field values; this is
the same state because the hysteresis branches are mutually exclusive and
no mutated field is read again later in the call. -/
def analyzeHandState (m : JsMath) (st : HandState) (h : Hand) (timestamp : ℚ) : HandState :=
  let indexTip := h.landmarks 8
  let thumbTip := h.landmarks 4
  let reference := referenceSpan m h
  let pinchRatio := pinchRatioOf m h
  let pinchOn := st.pinch = false ∧ pinchRatio < PINCH_ON
  let pinchOff := st.pinch = true ∧ pinchRatio > PINCH_OFF
  let duration := timestamp - st.pinchStartTime
  let distanceAvg := distanceAvgOf m h
  let isOpenPalm : Bool := decide (distanceAvg > PALM_OPEN_THRESHOLD)
  let isFist : Bool := decide (distanceAvg < FIST_THRESHOLD)
  let palmCenter := palmCenterOf h
  let thumbVec := vectorFromPoints (h.landmarks 2) thumbTip
  let thumbAngle := angleBetween m thumbVec ⟨0, -1, 0⟩
  let thumbExtended : Bool := decide (thumbAngle < THUMBS_UP_ANGLE)
  { pinch := if pinchOn then true else if pinchOff then false else st.pinch,
    pinchStartTime :=
      if pinchOn then timestamp else if pinchOff then 0 else st.pinchStartTime,
    lastPinchPosition := if pinchOn ∨ pinchOff then none else st.lastPinchPosition,
    newPinch := if pinchOn then true else if pinchOff then false else st.newPinch,
    pendingDoublePinch :=
      if pinchOff ∧ duration < DOUBLE_PINCH_WINDOW ∧
          timestamp - st.lastPinchRelease < DOUBLE_PINCH_WINDOW then true
      else st.pendingDoublePinch,
    lastPinchRelease := if pinchOff then timestamp else st.lastPinchRelease,
    openPalmStart :=
      if isOpenPalm then (if st.openPalmStart = 0 then timestamp else st.openPalmStart)
      else 0,
    quickHelpShown :=
      if isOpenPalm then (if st.openPalmStart = 0 then false else st.quickHelpShown)
      else false,
    fist := isFist,
    swipeVelocity :=
      if st.lastCenter.isSome then
        let dt0 := (timestamp - st.swipeLastTime) / 1000
        let dt := if dt0 = 0 then 2/125 else dt0
        (palmCenter.x - (st.lastCenter.getD ⟨0, 0⟩).x) / dt
      else st.swipeVelocity,
    lastCenter := some palmCenter,
    swipeLastTime := timestamp,
    thumbsUp := thumbExtended && isFist,
    pinchRatio := pinchRatio,
    isOpenPalm := isOpenPalm,
    isFist := isFist,
    center := palmCenter,
    indexTip := indexTip,
    thumbTip := thumbTip,
    reference := reference }

inductive Tool
  | draw
  | erase
  deriving Repr, DecidableEq

/-- The two-hand session anchor. -/
structure Session where
  baseDistance : ℚ
  lastCenter : Point2
  baseAngle : ℚ
  deriving Repr, DecidableEq

/-- The controller's persistent state (`this.*` in the constructor).
`handStates` is the `Map` keyed by `hand.index`; note the source never
removes entries from it. -/
structure CState where
  handStates : List (ℕ × HandState)
  tool : Tool
  twoHandSession : Option Session
  lastPanelsToggle : ℚ
  lastPauseToggle : ℚ
  lastScreenshot : ℚ
  lastShapeSwipe : ℚ
  deriving Repr, DecidableEq

def initState : CState :=
  ⟨[], Tool.draw, none, 0, 0, 0, 0⟩

/-- `this.handStates.get(k) || defaultLiteral`. -/
def lookupState (l : List (ℕ × HandState)) (k : ℕ) : HandState :=
  match l.find? (fun p => p.1 == k) with
  | some p => p.2
  | none => initHandState

/-- `this.handStates.set(k, v)`. -/
def setState (l : List (ℕ × HandState)) (k : ℕ) (v : HandState) : List (ℕ × HandState) :=
  match l with
  | [] => [(k, v)]
  | p :: rest => if p.1 = k then (k, v) :: rest else p :: setState rest k v

/-- `hands.map((hand) => this.analyzeHand(hand, timestamp))`: the sequential
map-threaded analysis pass.  The analyzed states are the map entries at the
hands' indices (the JavaScript list holds aliases of those entries). -/
def analyzeAll (m : JsMath) (states : List (ℕ × HandState)) (hands : List Hand) (t : ℚ) :
    List (ℕ × HandState) :=
  match hands with
  | [] => states
  | h :: rest =>
      analyzeAll m
        (setState states h.index (analyzeHandState m (lookupState states h.index) h t))
        rest t

/-- `analyzed.filter((state) => state.pinch)`, as the indices of the
pinching analyzed states. -/
def pinchKeysOf (states : List (ℕ × HandState)) (keys : List ℕ) : List ℕ :=
  keys.filter (fun k => (lookupState states k).pinch)

structure DrawingEv where
  active : Bool
  point : Option Point
  pressure : ℚ
  tool : Tool
  justStarted : Bool
  justEnded : Bool
  deriving Repr, DecidableEq

structure SceneEv where
  rotate : Point
  scale : ℚ
  translate : Point2
  activeHands : ℕ
  reset : Bool
  deriving Repr, DecidableEq

inductive ShapeDir
  | next
  | prev
  deriving Repr, DecidableEq

structure GlobalEv where
  togglePanels : Bool
  pauseCamera : Bool
  screenshot : Bool
  quickHelp : Bool
  cycleShape : Option ShapeDir
  deriving Repr, DecidableEq

structure InfoEv where
  pinchHands : ℕ
  deriving Repr, DecidableEq

/-- The per-frame Gesture Event Bundle. -/
structure Events where
  drawing : DrawingEv
  scene : SceneEv
  global : GlobalEv
  info : InfoEv
  deriving Repr, DecidableEq

/-- The `events` literal built at the top of `process`. -/
def initEvents (tool : Tool) : Events :=
  { drawing := { active := false, point := none, pressure := 0, tool := tool,
                 justStarted := false, justEnded := false },
    scene := { rotate := ⟨0, 0, 0⟩, scale := 1, translate := ⟨0, 0⟩,
               activeHands := 0, reset := false },
    global := { togglePanels := false, pauseCamera := false, screenshot := false,
                quickHelp := false, cycleShape := none },
    info := { pinchHands := 0 } }

/-- The `pinchHands.length === 1` branch of `process`. -/
def onePinchPhase (states : List (ℕ × HandState)) (k : ℕ) (ev : Events) :
    List (ℕ × HandState) × Events :=
  let state := lookupState states k
  let currentPoint := state.indexTip
  let prev := state.lastPinchPosition
  let started := state.newPinch
  let ev := if started then { ev with drawing := { ev.drawing with justStarted := true } } else ev
  let state := if started then { state with newPinch := false } else state
  let state := { state with lastPinchPosition := some currentPoint }
  let pressure := clamp (1 - state.pinchRatio / PINCH_ON) 0 1
  let ev := { ev with drawing := { ev.drawing with
                active := true, point := some currentPoint, pressure := pressure } }
  let ev :=
    if prev.isSome then
      let prevP := prev.getD ⟨0, 0, 0⟩
      let dx := currentPoint.x - prevP.x
      let dy := currentPoint.y - prevP.y
      { ev with scene := { ev.scene with
          rotate := { ev.scene.rotate with y := dx * (-220), x := dy * (-180) },
          activeHands := 1 } }
    else ev
  (setState states k state, ev)

/-- The `pinchHands.length === 0` branch of `process`. -/
def zeroPinchPhase (states : List (ℕ × HandState)) (keys : List ℕ) (ev : Events) :
    List (ℕ × HandState) × Events :=
  keys.foldl
    (fun acc k =>
      let st := lookupState acc.1 k
      if st.lastPinchPosition.isSome then
        (setState acc.1 k { st with lastPinchPosition := none },
         { acc.2 with drawing := { acc.2.drawing with justEnded := true } })
      else acc)
    (states, ev)

/-- The `pinchHands.length === 2` branch of `process`: seed or advance the
two-hand session.  (The source also reads `hands[leftIdx]`/`hands[rightIdx]`
into two unused locals; they are omitted.) -/
def twoHandPhase (m : JsMath) (states : List (ℕ × HandState)) (k1 k2 : ℕ)
    (session : Option Session) (ev : Events) : Option Session × Events :=
  let p1 := (lookupState states k1).indexTip
  let p2 := (lookupState states k2).indexTip
  let center : Point2 := ⟨(p1.x + p2.x) / 2, (p1.y + p2.y) / 2⟩
  let dist := distance2D m p1 p2
  let angle := m.atan2 (p2.y - p1.y) (p2.x - p1.x)
  match session with
  | none => (some ⟨dist, center, angle⟩, ev)
  | some sess =>
      (some ⟨dist, center, angle⟩,
       { ev with scene := { ev.scene with
           scale := dist / sess.baseDistance,
           translate := ⟨center.x - sess.lastCenter.x, center.y - sess.lastCenter.y⟩,
           rotate := { ev.scene.rotate with z := angle - sess.baseAngle },
           activeHands := 2 } })

/-- Accumulator of the final `analyzed.forEach` loop of `process`. -/
structure GAcc where
  states : List (ℕ × HandState)
  tool : Tool
  lastPanelsToggle : ℚ
  lastPauseToggle : ℚ
  lastScreenshot : ℚ
  lastShapeSwipe : ℚ
  ev : Events

/-- One iteration of the final `analyzed.forEach` loop of `process`: tool
toggle on a pending double pinch, the open-palm block (panel toggle, quick
help, shape swipe), then the fist and thumbs-up commands with their
cooldowns.  The source's in-place writes are expressed as per-field
conditional values in source order: the quick-help check reads
`openPalmStart`/`quickHelpShown` as left by the panel-toggle branch, and
`pendingDoublePinch := false` is written unconditionally (when no double
pinch was pending it already was `false`). -/
def globalStep (t : ℚ) (acc : GAcc) (k : ℕ) : GAcc :=
  let st0 := lookupState acc.states k
  let tool :=
    if st0.pendingDoublePinch then
      (if acc.tool = Tool.draw then Tool.erase else Tool.draw)
    else acc.tool
  let fireP := st0.isOpenPalm = true ∧ t - acc.lastPanelsToggle > 600 ∧
               st0.openPalmStart ≠ 0 ∧ t - st0.openPalmStart > 200
  let opsAfterP := if fireP then t else st0.openPalmStart
  let qhsAfterP := if fireP then false else st0.quickHelpShown
  let fireH := st0.isOpenPalm = true ∧ qhsAfterP = false ∧ t - opsAfterP > HELP_HOLD_TIME
  let fireS := st0.isOpenPalm = true ∧ |st0.swipeVelocity| > SWIPE_VELOCITY ∧
               t - acc.lastShapeSwipe > 600
  let fireF := st0.isFist = true ∧ t - acc.lastPauseToggle > 800
  let fireT := st0.thumbsUp = true ∧ t - acc.lastScreenshot > 1500
  { states := setState acc.states k
      { st0 with pendingDoublePinch := false,
                 openPalmStart := opsAfterP,
                 quickHelpShown := if fireH then true else qhsAfterP },
    tool := tool,
    lastPanelsToggle := if fireP then t else acc.lastPanelsToggle,
    lastPauseToggle := if fireF then t else acc.lastPauseToggle,
    lastScreenshot := if fireT then t else acc.lastScreenshot,
    lastShapeSwipe := if fireS then t else acc.lastShapeSwipe,
    ev := { acc.ev with global :=
      { togglePanels := if fireP then true else acc.ev.global.togglePanels,
        pauseCamera := if fireF then true else acc.ev.global.pauseCamera,
        screenshot := if fireT then true else acc.ev.global.screenshot,
        quickHelp := if fireH then true else acc.ev.global.quickHelp,
        cycleShape :=
          if fireS then
            some (if st0.swipeVelocity > 0 then ShapeDir.next else ShapeDir.prev)
          else acc.ev.global.cycleShape } } }

/-- Embedding of `GestureController.process(hands, timestamp)`: returns the
updated controller state and the emitted Gesture Event Bundle. -/
def processU (m : JsMath) (s : CState) (hands : List Hand) (t : ℚ) : CState × Events :=
  let keys := hands.map (fun h => h.index)
  let states1 := analyzeAll m s.handStates hands t
  let pinchKeys := pinchKeysOf states1 keys
  let ev0 := initEvents s.tool
  let ev0 := { ev0 with info := { pinchHands := pinchKeys.length } }
  let phase1 :=
    match pinchKeys with
    | [k] => onePinchPhase states1 k ev0
    | [] => zeroPinchPhase states1 keys ev0
    | _ => (states1, ev0)
  let phase2 :=
    match pinchKeys with
    | [k1, k2] => twoHandPhase m phase1.1 k1 k2 s.twoHandSession phase1.2
    | _ => (none, phase1.2)
  let acc := keys.foldl (globalStep t)
    ⟨phase1.1, s.tool, s.lastPanelsToggle, s.lastPauseToggle, s.lastScreenshot,
     s.lastShapeSwipe, phase2.2⟩
  let evFinal := { acc.ev with drawing := { acc.ev.drawing with tool := acc.tool } }
  (⟨acc.states, acc.tool, phase2.1, acc.lastPanelsToggle, acc.lastPauseToggle,
    acc.lastScreenshot, acc.lastShapeSwipe⟩, evFinal)

/-- A frame-by-frame run of the controller. -/
def runU (m : JsMath) (s : CState) : List (List Hand × ℚ) → CState × List Events
  | [] => (s, [])
  | (hands, t) :: rest =>
      let step := processU m s hands t
      let tail := runU m step.1 rest
      (tail.1, step.2 :: tail.2)

end UtilsCtl

/-! ## The gestures.js GestureController (src/src/gestures.js) -/

namespace GestCtl

def PINCH_THRESHOLD : ℚ := 45/1000

def PINCH_RELEASE_THRESHOLD : ℚ := 65/1000

def DOUBLE_PINCH_WINDOW : ℚ := 280

def PALM_HOLD_DURATION : ℚ := 900

def SWIPE_VELOCITY_THRESHOLD : ℚ := 6/10

/-- A hand observation as consumed by `#updateSingleHand`: its screen-space
landmarks (21 points in anatomical order). -/
structure GHand where
  screenLandmarks : Fin 21 → Point

/-- Embedding of the gestures-variant `distance` (the utils module staged
in src/src/scene3d.js, lines 540-545): Euclidean distance of two 3D points,
`Math.sqrt(dx*dx + dy*dy + dz*dz)` with `Math.sqrt` kept uninterpreted in
`JsMath`.  The source's `z || 0` falsiness guards are the identity on the
rational coordinates of the embedding. -/
def distance (m : JsMath) (a b : Point) : ℚ :=
  m.sqrt ((a.x - b.x) * (a.x - b.x) + (a.y - b.y) * (a.y - b.y)
    + (a.z - b.z) * (a.z - b.z))

/-- Embedding of the gestures-variant `averagePoints` (src/src/scene3d.js,
lines 547-560): `null` on an empty list, otherwise the componentwise mean
of the points (`z || 0` again the identity on rational coordinates). -/
def averagePoints (ps : List Point) : Option Point :=
  if ps.length = 0 then none
  else some ⟨(ps.map Point.x).sum / (ps.length : ℚ),
             (ps.map Point.y).sum / (ps.length : ℚ),
             (ps.map Point.z).sum / (ps.length : ℚ)⟩

/-- Embedding of the gestures-variant `vectorFrom a b` (src/src/scene3d.js,
lines 613-619): the displacement vector from `a` to `b`, with the `z || 0`
guards the identity on rational coordinates. -/
def vectorFrom (a b : Point) : Point :=
  ⟨b.x - a.x, b.y - a.y, b.z - a.z⟩

/-- State of the gestures-variant `OneEuroFilter` (src/src/scene3d.js,
lines 495-538): unlike the utils.js filter it takes no frequency parameter,
its derivative state starts at `0` rather than `null`, and its `filter`
guards `dt <= 0`. -/
structure OneEuroFilter where
  minCutoff : ℚ
  beta : ℚ
  dCutoff : ℚ
  prevTimestamp : Option ℚ
  prevValue : Option ℚ
  prevDerivative : ℚ
  deriving Repr, DecidableEq

/-- `new OneEuroFilter({ minCutoff, beta })` with the constructor default
`dCutoff = 1`. -/
def OneEuroFilter.create (minCutoff beta : ℚ) : OneEuroFilter :=
  ⟨minCutoff, beta, 1, none, none, 0⟩

/-- The gestures-variant `alpha(cutoff, dt)`: `tau = 1/(2π·cutoff)`,
`alpha = 1/(1 + tau/dt)` (the method reads nothing from `this`). -/
def OneEuroFilter.alpha (cutoff dt : ℚ) : ℚ :=
  let tau := 1 / (2 * jsPI * cutoff)
  1 / (1 + tau / dt)

/-- The gestures-variant `filter(value, timestamp)`: the first call seeds
`prevTimestamp`/`prevValue` and returns the value; afterwards the timestamp
is overwritten first and a `dt <= 0` call returns `prevValue` with no
value/derivative update.  `prevValue` is a number on every reachable state
with `prevTimestamp` set (both are assigned together), so `getD 0` stands
in for its unreachable `null`. -/
def OneEuroFilter.filter (f : OneEuroFilter) (value timestamp : ℚ) :
    OneEuroFilter × ℚ :=
  match f.prevTimestamp with
  | none =>
      ({ f with prevTimestamp := some timestamp, prevValue := some value }, value)
  | some prevT =>
      let dt := (timestamp - prevT) / 1000
      if dt ≤ 0 then
        ({ f with prevTimestamp := some timestamp }, f.prevValue.getD 0)
      else
        let dx := (value - f.prevValue.getD 0) / dt
        let alphaDerivative := OneEuroFilter.alpha f.dCutoff dt
        let prevDerivative :=
          alphaDerivative * dx + (1 - alphaDerivative) * f.prevDerivative
        let cutoff := f.minCutoff + f.beta * |prevDerivative|
        let alphaValue := OneEuroFilter.alpha cutoff dt
        let filtered := alphaValue * value + (1 - alphaValue) * f.prevValue.getD 0
        ({ f with prevTimestamp := some timestamp, prevValue := some filtered,
                  prevDerivative := prevDerivative }, filtered)

/-- The per-hand discrete event tags pushed into `state.events`
("double-pinch", "pinch-start", "pinch-end"). -/
inductive GEvent
  | doublePinch
  | pinchStart
  | pinchEnd
  deriving Repr, DecidableEq

structure Orientation where
  roll : ℚ
  pitch : ℚ
  yaw : ℚ
  deriving Repr, DecidableEq

/-- Per-hand tracking state (`defaultHandState` fields, plus the posture
flags `isOpenPalm`/`isFist`/`isThumbsUp` that `#updateSingleHand` assigns). -/
structure GHandState where
  handedness : String
  pinch : Bool
  pinchStrength : ℚ
  pinchPoint : Option Point
  pinchFilterX : OneEuroFilter
  pinchFilterY : OneEuroFilter
  pinchFilterZ : OneEuroFilter
  lastPinchTime : ℚ
  lastPinchRelease : ℚ
  lastDoublePinchTime : ℚ
  events : List GEvent
  orientation : Orientation
  palmNormal : Point
  palmCenter : Option Point
  previousPalmCenter : Option Point
  velocity : Point
  lastTimestamp : ℚ
  isOpenPalm : Bool
  isFist : Bool
  isThumbsUp : Bool
  deriving Repr, DecidableEq

/-- Embedding of `defaultHandState(handedness)`: note the three pinch-point
filters are created here, once per hand state, with
`{ minCutoff: 1.2, beta: 0.01 }` (and the constructor default
`dCutoff = 1`). -/
def defaultHandState (handedness : String) : GHandState :=
  { handedness := handedness, pinch := false, pinchStrength := 0, pinchPoint := none,
    pinchFilterX := OneEuroFilter.create (12/10) (1/100),
    pinchFilterY := OneEuroFilter.create (12/10) (1/100),
    pinchFilterZ := OneEuroFilter.create (12/10) (1/100),
    lastPinchTime := 0, lastPinchRelease := 0, lastDoublePinchTime := 0,
    events := [], orientation := ⟨0, 0, 0⟩, palmNormal := ⟨0, 0, 1⟩,
    palmCenter := none, previousPalmCenter := none, velocity := ⟨0, 0, 0⟩,
    lastTimestamp := 0, isOpenPalm := false, isFist := false, isThumbsUp := false }

/-- `pinchDistance / (wristToIndex || 1)`: the hand-size-normalized
thumb-tip-to-index-tip distance of `#updateSingleHand`. -/
def normalizedPinchOf (m : JsMath) (h : GHand) : ℚ :=
  let pinchDistance := distance m (h.screenLandmarks 8) (h.screenLandmarks 4)
  let wristToIndex := distance m (h.screenLandmarks 0) (h.screenLandmarks 5)
  pinchDistance / (if wristToIndex = 0 then 1 else wristToIndex)

/-- Stage 1 of `#updateSingleHand` (palm-center smoothing, velocity,
`previousPalmCenter`/`lastTimestamp`).  The conditional velocity mutation is
expressed as a conditional value; the JavaScript mutates `velocity` only
when `lastTimestamp` is truthy and `dt > 0`, which yields the same state.
`palmPoints` is a seven-entry list literal, so `averagePoints` never
returns `none` here and the `getD` default is dead. -/
def motionStage (h : GHand) (st : GHandState) (timestamp : ℚ) : GHandState :=
  let palmPoints := ([0, 1, 2, 5, 9, 13, 17] : List (Fin 21)).map h.screenLandmarks
  let palmCenterRaw := (averagePoints palmPoints).getD ⟨0, 0, 0⟩
  let palmCenterNew :=
    if st.palmCenter.isSome then
      let pc := st.palmCenter.getD ⟨0, 0, 0⟩
      Point.mk (pc.x * (6/10) + palmCenterRaw.x * (4/10))
        (pc.y * (6/10) + palmCenterRaw.y * (4/10))
        (pc.z * (6/10) + palmCenterRaw.z * (4/10))
    else palmCenterRaw
  let velocityNew :=
    if st.lastTimestamp ≠ 0 then
      let dt := (timestamp - st.lastTimestamp) / 1000
      if dt > 0 then
        let prev := st.previousPalmCenter.getD palmCenterNew
        Point.mk ((palmCenterNew.x - prev.x) / dt) ((palmCenterNew.y - prev.y) / dt)
          ((palmCenterNew.z - prev.z) / dt)
      else st.velocity
    else st.velocity
  { st with palmCenter := some palmCenterNew, velocity := velocityNew,
            previousPalmCenter := some palmCenterNew, lastTimestamp := timestamp }

/-- Stage 2 of `#updateSingleHand`: the pinch hysteresis transition with its
per-hand events, the pinch strength, and the filtered pinch point (the
source's `indexTip.z ?? 0` is the identity on the rational coordinate). -/
def pinchStage (m : JsMath) (h : GHand) (st : GHandState) (timestamp : ℚ) : GHandState :=
  let indexTip := h.screenLandmarks 8
  let normalizedPinch := normalizedPinchOf m h
  let st :=
    if st.pinch = false ∧ normalizedPinch < PINCH_THRESHOLD then
      if timestamp - st.lastPinchRelease < DOUBLE_PINCH_WINDOW then
        { st with pinch := true, lastPinchTime := timestamp,
                  events := st.events ++ [GEvent.doublePinch, GEvent.pinchStart],
                  lastDoublePinchTime := timestamp }
      else
        { st with pinch := true, lastPinchTime := timestamp,
                  events := st.events ++ [GEvent.pinchStart] }
    else if st.pinch = true ∧ normalizedPinch > PINCH_RELEASE_THRESHOLD then
      { st with pinch := false, lastPinchRelease := timestamp,
                events := st.events ++ [GEvent.pinchEnd] }
    else st
  let st := { st with pinchStrength := clamp (1 - normalizedPinch / PINCH_THRESHOLD) 0 1 }
  if st.pinch then
    let fx := st.pinchFilterX.filter indexTip.x timestamp
    let fy := st.pinchFilterY.filter indexTip.y timestamp
    let fz := st.pinchFilterZ.filter indexTip.z timestamp
    { st with pinchFilterX := fx.1, pinchFilterY := fy.1, pinchFilterZ := fz.1,
              pinchPoint := some ⟨fx.2, fy.2, fz.2⟩ }
  else { st with pinchPoint := none }

/-- Stage 3 of `#updateSingleHand`: orientation estimate, posture flags and
palm normal. -/
def postureStage (m : JsMath) (h : GHand) (st : GHandState) : GHandState :=
  let indexTip := h.screenLandmarks 8
  let thumbTip := h.screenLandmarks 4
  let wrist := h.screenLandmarks 0
  let middleMcp := h.screenLandmarks 9
  let wristToIndexVec := vectorFrom wrist indexTip
  let wristToMiddleVec := vectorFrom wrist middleMcp
  let yaw := m.atan2 wristToIndexVec.x
    (if wristToIndexVec.z = 0 then 1/10000 else wristToIndexVec.z)
  let pitch := m.atan2 wristToIndexVec.y
    (if wristToIndexVec.z = 0 then 1/10000 else wristToIndexVec.z)
  let roll := m.atan2 wristToMiddleVec.y wristToMiddleVec.x
  let fingerTips := ([8, 12, 16, 20] : List (Fin 21)).map h.screenLandmarks
  let totalExtension := fingerTips.foldl (fun acc tip => acc + distance m wrist tip) 0
  let thumbIp := h.screenLandmarks 3
  let thumbExtension := distance m thumbTip wrist
  let palmSize := distance m (h.screenLandmarks 0) (h.screenLandmarks 9)
  let palmDenom := if palmSize = 0 then 1 else palmSize
  let indexMcp := h.screenLandmarks 5
  let ringMcp := h.screenLandmarks 13
  let palmVector := vectorFrom indexMcp ringMcp
  let thumbVector := vectorFrom thumbTip thumbIp
  let palmNormal : Point :=
    ⟨palmVector.y * thumbVector.z - palmVector.z * thumbVector.y,
     palmVector.z * thumbVector.x - palmVector.x * thumbVector.z,
     palmVector.x * thumbVector.y - palmVector.y * thumbVector.x⟩
  let mag0 := m.sqrt (palmNormal.x ^ 2 + palmNormal.y ^ 2 + palmNormal.z ^ 2)
  let mag := if mag0 = 0 then 1 else mag0
  { st with orientation := ⟨roll, pitch, yaw⟩,
            isOpenPalm := decide (totalExtension / palmDenom > 56/10),
            isFist := decide (totalExtension / palmDenom < 31/10),
            isThumbsUp := decide (thumbExtension > palmSize * (14/10)) &&
              (fingerTips.drop 1).all
                (fun tip => decide (distance m tip wrist < palmSize * (12/10))),
            palmNormal := ⟨palmNormal.x / mag, palmNormal.y / mag, palmNormal.z / mag⟩ }

/-- Embedding of `GestureController.#updateSingleHand(hand, state, timestamp)`
as the composition of its three stages in source order.  (The source's
unused local `wasPinching` is omitted.) -/
def updateSingleHand (m : JsMath) (h : GHand) (st : GHandState) (timestamp : ℚ) :
    GHandState :=
  postureStage m h (pinchStage m h (motionStage h st timestamp) timestamp)

/-- One tracked hand driven across frames as the `update` loop does it:
each frame the state is updated, the `events` accumulated that frame are
emitted, and the stored state's `events` list is cleared. -/
def runHand (m : JsMath) (st : GHandState) :
    List (GHand × ℚ) → GHandState × List (List GEvent)
  | [] => (st, [])
  | (h, t) :: rest =>
      let st1 := updateSingleHand m h st t
      let tail := runHand m { st1 with events := [] } rest
      (tail.1, st1.events :: tail.2)

end GestCtl

/-! ## Pinch hysteresis (claim C2) -/

namespace UtilsCtl

/-- The pinch flag after `analyzeHand` is governed exactly by the
two-threshold hysteresis at `PINCH_ON`/`PINCH_OFF`. -/
theorem analyzeHandState_pinch (m : JsMath) (st : HandState) (h : Hand) (t : ℚ) :
    (analyzeHandState m st h t).pinch =
      if st.pinch = false ∧ pinchRatioOf m h < PINCH_ON then true
      else if st.pinch = true ∧ pinchRatioOf m h > PINCH_OFF then false
      else st.pinch := rfl

theorem analyzeHandState_pinch_band (m : JsMath) (st : HandState) (h : Hand) (t : ℚ)
    (h1 : PINCH_ON < pinchRatioOf m h) (h2 : pinchRatioOf m h < PINCH_OFF) :
    (analyzeHandState m st h t).pinch = st.pinch := by
  have hA : ¬(st.pinch = false ∧ pinchRatioOf m h < PINCH_ON) := by
    rintro ⟨-, hlt⟩
    exact absurd hlt (not_lt.2 h1.le)
  have hB : ¬(st.pinch = true ∧ pinchRatioOf m h > PINCH_OFF) := by
    rintro ⟨-, hgt⟩
    exact absurd hgt (not_lt.2 h2.le)
  rw [analyzeHandState_pinch, if_neg hA, if_neg hB]

/-- One hand analyzed frame after frame (its per-frame view of the
`analyzed` pass of `process`). -/
def analyzeRun (m : JsMath) (st : HandState) : List (Hand × ℚ) → HandState
  | [] => st
  | (h, t) :: rest => analyzeRun m (analyzeHandState m st h t) rest

theorem analyzeRun_pinch_band (m : JsMath) (frames : List (Hand × ℚ)) :
    ∀ st : HandState,
      (∀ p ∈ frames, PINCH_ON < pinchRatioOf m p.1 ∧ pinchRatioOf m p.1 < PINCH_OFF) →
      (analyzeRun m st frames).pinch = st.pinch := by
  induction frames with
  | nil => intro st _; rfl
  | cons p rest ih =>
      intro st hband
      obtain ⟨h, t⟩ := p
      have hp := hband (h, t) (List.mem_cons_self _ _)
      rw [analyzeRun, ih _ (fun q hq => hband q (List.mem_cons_of_mem _ hq)),
        analyzeHandState_pinch_band m st h t hp.1 hp.2]

end UtilsCtl

namespace GestCtl

theorem motionStage_pinch (h : GHand) (st : GHandState) (t : ℚ) :
    (motionStage h st t).pinch = st.pinch := rfl

theorem motionStage_events (h : GHand) (st : GHandState) (t : ℚ) :
    (motionStage h st t).events = st.events := rfl

theorem motionStage_lastPinchRelease (h : GHand) (st : GHandState) (t : ℚ) :
    (motionStage h st t).lastPinchRelease = st.lastPinchRelease := rfl

theorem motionStage_pinchFilterX (h : GHand) (st : GHandState) (t : ℚ) :
    (motionStage h st t).pinchFilterX = st.pinchFilterX := rfl

theorem motionStage_pinchFilterY (h : GHand) (st : GHandState) (t : ℚ) :
    (motionStage h st t).pinchFilterY = st.pinchFilterY := rfl

theorem motionStage_pinchFilterZ (h : GHand) (st : GHandState) (t : ℚ) :
    (motionStage h st t).pinchFilterZ = st.pinchFilterZ := rfl

theorem postureStage_pinch (m : JsMath) (h : GHand) (st : GHandState) :
    (postureStage m h st).pinch = st.pinch := rfl

theorem postureStage_events (m : JsMath) (h : GHand) (st : GHandState) :
    (postureStage m h st).events = st.events := rfl

theorem postureStage_lastPinchRelease (m : JsMath) (h : GHand) (st : GHandState) :
    (postureStage m h st).lastPinchRelease = st.lastPinchRelease := rfl

theorem postureStage_pinchPoint (m : JsMath) (h : GHand) (st : GHandState) :
    (postureStage m h st).pinchPoint = st.pinchPoint := rfl

theorem pinchStage_pinch (m : JsMath) (h : GHand) (st : GHandState) (t : ℚ) :
    (pinchStage m h st t).pinch =
      if st.pinch = false ∧ normalizedPinchOf m h < PINCH_THRESHOLD then true
      else if st.pinch = true ∧ normalizedPinchOf m h > PINCH_RELEASE_THRESHOLD then false
      else st.pinch := by
  unfold pinchStage
  dsimp only
  split_ifs <;> simp_all

/-- The pinch flag after `#updateSingleHand` is governed exactly by the
two-threshold hysteresis at `PINCH_THRESHOLD`/`PINCH_RELEASE_THRESHOLD`. -/
theorem updateSingleHand_pinch (m : JsMath) (h : GHand) (st : GHandState) (t : ℚ) :
    (updateSingleHand m h st t).pinch =
      if st.pinch = false ∧ normalizedPinchOf m h < PINCH_THRESHOLD then true
      else if st.pinch = true ∧ normalizedPinchOf m h > PINCH_RELEASE_THRESHOLD then false
      else st.pinch := by
  unfold updateSingleHand
  rw [postureStage_pinch, pinchStage_pinch, motionStage_pinch]

theorem updateSingleHand_pinch_band (m : JsMath) (h : GHand) (st : GHandState) (t : ℚ)
    (h1 : PINCH_THRESHOLD < normalizedPinchOf m h)
    (h2 : normalizedPinchOf m h < PINCH_RELEASE_THRESHOLD) :
    (updateSingleHand m h st t).pinch = st.pinch := by
  have hA : ¬(st.pinch = false ∧ normalizedPinchOf m h < PINCH_THRESHOLD) := by
    rintro ⟨-, hlt⟩
    exact absurd hlt (not_lt.2 h1.le)
  have hB : ¬(st.pinch = true ∧ normalizedPinchOf m h > PINCH_RELEASE_THRESHOLD) := by
    rintro ⟨-, hgt⟩
    exact absurd hgt (not_lt.2 h2.le)
  rw [updateSingleHand_pinch, if_neg hA, if_neg hB]

theorem runHand_pinch_band (m : JsMath) (frames : List (GHand × ℚ)) :
    ∀ st : GHandState,
      (∀ p ∈ frames, PINCH_THRESHOLD < normalizedPinchOf m p.1 ∧
          normalizedPinchOf m p.1 < PINCH_RELEASE_THRESHOLD) →
      (runHand m st frames).1.pinch = st.pinch := by
  induction frames with
  | nil => intro st _; rfl
  | cons p rest ih =>
      intro st hband
      obtain ⟨h, t⟩ := p
      have hp := hband (h, t) (List.mem_cons_self _ _)
      rw [runHand]
      rw [ih _ (fun q hq => hband q (List.mem_cons_of_mem _ hq))]
      exact updateSingleHand_pinch_band m h st t hp.1 hp.2

end GestCtl

/-- Claim C2: while the normalized pinch distance stays strictly inside the
hysteresis band (above the on threshold, below the strictly larger off
threshold) on every frame, the hand's pinch boolean never changes — in the
utils.js controller (`PINCH_ON`/`PINCH_OFF`) and in the gestures.js
controller (`PINCH_THRESHOLD`/`PINCH_RELEASE_THRESHOLD`) alike. -/
theorem C2_pinch_hysteresis_no_toggle (m : JsMath)
    (stU : UtilsCtl.HandState) (framesU : List (UtilsCtl.Hand × ℚ))
    (stG : GestCtl.GHandState) (framesG : List (GestCtl.GHand × ℚ))
    (hU : ∀ p ∈ framesU, UtilsCtl.PINCH_ON < UtilsCtl.pinchRatioOf m p.1 ∧
        UtilsCtl.pinchRatioOf m p.1 < UtilsCtl.PINCH_OFF)
    (hG : ∀ p ∈ framesG, GestCtl.PINCH_THRESHOLD < GestCtl.normalizedPinchOf m p.1 ∧
        GestCtl.normalizedPinchOf m p.1 < GestCtl.PINCH_RELEASE_THRESHOLD) :
    (UtilsCtl.analyzeRun m stU framesU).pinch = stU.pinch ∧
    (GestCtl.runHand m stG framesG).1.pinch = stG.pinch :=
  ⟨UtilsCtl.analyzeRun_pinch_band m framesU stU hU,
   GestCtl.runHand_pinch_band m framesG stG hG⟩

/-- A concrete interpretation of the uninterpreted math primitives, used
only to build witnesses (`hypot a b = a² + b²`, `sqrt = id`, so squared
distances stand in for distances — the theorems hold for any choice). -/
def witnessM : JsMath :=
  ⟨fun a b => a * a + b * b, id, id, fun _ _ => 0⟩

/-- A 21-landmark hand whose utils.js normalized pinch ratio under
`witnessM` is `0.3025`, strictly inside the `(0.28, 0.36)` band. -/
def witnessHandU : UtilsCtl.Hand :=
  ⟨0, fun i =>
    if i = 5 ∨ i = 9 ∨ i = 13 then ⟨1, 0, 0⟩
    else if i = 4 then ⟨11/20, 0, 0⟩
    else ⟨0, 0, 0⟩⟩

/-- A 21-landmark hand whose gestures.js normalized pinch under `witnessM`
is `0.0484`, strictly inside the `(0.045, 0.065)` band. -/
def witnessHandG : GestCtl.GHand :=
  ⟨fun i =>
    if i = 5 then ⟨1, 0, 0⟩
    else if i = 4 then ⟨11/50, 0, 0⟩
    else ⟨0, 0, 0⟩⟩

theorem C2_pinch_hysteresis_no_toggle_witness :
    (UtilsCtl.analyzeRun witnessM UtilsCtl.initHandState [(witnessHandU, 0)]).pinch
      = UtilsCtl.initHandState.pinch ∧
    (GestCtl.runHand witnessM (GestCtl.defaultHandState "Left") [(witnessHandG, 0)]).1.pinch
      = (GestCtl.defaultHandState "Left").pinch :=
  C2_pinch_hysteresis_no_toggle witnessM UtilsCtl.initHandState [(witnessHandU, 0)]
    (GestCtl.defaultHandState "Left") [(witnessHandG, 0)]
    (by
      intro p hp
      rw [List.mem_singleton] at hp
      subst hp
      have e0 : witnessHandU.landmarks 0 = ⟨0, 0, 0⟩ := rfl
      have e4 : witnessHandU.landmarks 4 = ⟨11/20, 0, 0⟩ := rfl
      have e5 : witnessHandU.landmarks 5 = ⟨1, 0, 0⟩ := rfl
      have e8 : witnessHandU.landmarks 8 = ⟨0, 0, 0⟩ := rfl
      have e9 : witnessHandU.landmarks 9 = ⟨1, 0, 0⟩ := rfl
      have e13 : witnessHandU.landmarks 13 = ⟨1, 0, 0⟩ := rfl
      constructor <;>
        norm_num [UtilsCtl.pinchRatioOf, UtilsCtl.referenceSpan, distance2D, witnessM,
          UtilsCtl.PINCH_ON, UtilsCtl.PINCH_OFF, e0, e4, e5, e8, e9, e13])
    (by
      intro p hp
      rw [List.mem_singleton] at hp
      subst hp
      have e0 : witnessHandG.screenLandmarks 0 = ⟨0, 0, 0⟩ := rfl
      have e4 : witnessHandG.screenLandmarks 4 = ⟨11/50, 0, 0⟩ := rfl
      have e5 : witnessHandG.screenLandmarks 5 = ⟨1, 0, 0⟩ := rfl
      have e8 : witnessHandG.screenLandmarks 8 = ⟨0, 0, 0⟩ := rfl
      constructor <;>
        norm_num [GestCtl.normalizedPinchOf, GestCtl.distance, witnessM,
          GestCtl.PINCH_THRESHOLD, GestCtl.PINCH_RELEASE_THRESHOLD, e0, e4, e5, e8])

/-! ## Double pinch (claim C3) -/

namespace GestCtl

theorem pinchStage_press (m : JsMath) (h : GHand) (st : GHandState) (t : ℚ)
    (hp : st.pinch = false) (hnp : normalizedPinchOf m h < PINCH_THRESHOLD)
    (hw : ¬ t - st.lastPinchRelease < DOUBLE_PINCH_WINDOW) :
    (pinchStage m h st t).pinch = true ∧
    (pinchStage m h st t).events = st.events ++ [GEvent.pinchStart] ∧
    (pinchStage m h st t).lastPinchRelease = st.lastPinchRelease := by
  unfold pinchStage
  dsimp only
  have hcond : st.pinch = false ∧ normalizedPinchOf m h < PINCH_THRESHOLD := ⟨hp, hnp⟩
  rw [if_pos hcond, if_neg hw]
  exact ⟨rfl, rfl, rfl⟩

theorem pinchStage_press_double (m : JsMath) (h : GHand) (st : GHandState) (t : ℚ)
    (hp : st.pinch = false) (hnp : normalizedPinchOf m h < PINCH_THRESHOLD)
    (hw : t - st.lastPinchRelease < DOUBLE_PINCH_WINDOW) :
    (pinchStage m h st t).pinch = true ∧
    (pinchStage m h st t).events = st.events ++ [GEvent.doublePinch, GEvent.pinchStart] ∧
    (pinchStage m h st t).lastPinchRelease = st.lastPinchRelease := by
  unfold pinchStage
  dsimp only
  have hcond : st.pinch = false ∧ normalizedPinchOf m h < PINCH_THRESHOLD := ⟨hp, hnp⟩
  rw [if_pos hcond, if_pos hw]
  exact ⟨rfl, rfl, rfl⟩

theorem pinchStage_release (m : JsMath) (h : GHand) (st : GHandState) (t : ℚ)
    (hp : st.pinch = true) (hnp : normalizedPinchOf m h > PINCH_RELEASE_THRESHOLD) :
    (pinchStage m h st t).pinch = false ∧
    (pinchStage m h st t).events = st.events ++ [GEvent.pinchEnd] ∧
    (pinchStage m h st t).lastPinchRelease = t := by
  unfold pinchStage
  dsimp only
  have hcond : st.pinch = true ∧ normalizedPinchOf m h > PINCH_RELEASE_THRESHOLD := ⟨hp, hnp⟩
  have hnot1 : ¬(st.pinch = false ∧ normalizedPinchOf m h < PINCH_THRESHOLD) := by
    rintro ⟨hf, -⟩
    rw [hp] at hf
    cases hf
  rw [if_neg hnot1, if_pos hcond]
  exact ⟨rfl, rfl, rfl⟩

theorem pinchStage_hold (m : JsMath) (h : GHand) (st : GHandState) (t : ℚ)
    (hp : st.pinch = true) (hnp : ¬ normalizedPinchOf m h > PINCH_RELEASE_THRESHOLD) :
    (pinchStage m h st t).pinch = true ∧
    (pinchStage m h st t).events = st.events ∧
    (pinchStage m h st t).lastPinchRelease = st.lastPinchRelease := by
  unfold pinchStage
  dsimp only
  have hnot1 : ¬(st.pinch = false ∧ normalizedPinchOf m h < PINCH_THRESHOLD) := by
    rintro ⟨hf, -⟩
    rw [hp] at hf
    cases hf
  have hnot2 : ¬(st.pinch = true ∧ normalizedPinchOf m h > PINCH_RELEASE_THRESHOLD) := by
    rintro ⟨-, hgt⟩
    exact hnp hgt
  rw [if_neg hnot1, if_neg hnot2]
  simp [hp]

theorem pinchStage_released (m : JsMath) (h : GHand) (st : GHandState) (t : ℚ)
    (hp : st.pinch = false) (hnp : ¬ normalizedPinchOf m h < PINCH_THRESHOLD) :
    (pinchStage m h st t).pinch = false ∧
    (pinchStage m h st t).events = st.events ∧
    (pinchStage m h st t).lastPinchRelease = st.lastPinchRelease := by
  unfold pinchStage
  dsimp only
  have hnot1 : ¬(st.pinch = false ∧ normalizedPinchOf m h < PINCH_THRESHOLD) := by
    rintro ⟨-, hlt⟩
    exact hnp hlt
  have hnot2 : ¬(st.pinch = true ∧ normalizedPinchOf m h > PINCH_RELEASE_THRESHOLD) := by
    rintro ⟨hf, -⟩
    rw [hp] at hf
    cases hf
  rw [if_neg hnot1, if_neg hnot2]
  simp [hp]

/-- Lift a `pinchStage` scenario fact through the motion and posture
stages to the whole `#updateSingleHand`. -/
theorem updateSingleHand_fields (m : JsMath) (h : GHand) (st : GHandState) (t : ℚ) :
    (updateSingleHand m h st t).pinch = (pinchStage m h (motionStage h st t) t).pinch ∧
    (updateSingleHand m h st t).events = (pinchStage m h (motionStage h st t) t).events ∧
    (updateSingleHand m h st t).lastPinchRelease
      = (pinchStage m h (motionStage h st t) t).lastPinchRelease :=
  ⟨rfl, rfl, rfl⟩

theorem runHand_single (m : JsMath) (st : GHandState) (h : GHand) (t : ℚ) :
    runHand m st [(h, t)]
      = ({ updateSingleHand m h st t with events := [] },
         [(updateSingleHand m h st t).events]) := rfl

theorem runHand_append (m : JsMath) (l1 l2 : List (GHand × ℚ)) :
    ∀ st : GHandState,
      runHand m st (l1 ++ l2)
        = ((runHand m (runHand m st l1).1 l2).1,
           (runHand m st l1).2 ++ (runHand m (runHand m st l1).1 l2).2) := by
  induction l1 with
  | nil => intro st; rfl
  | cons p rest ih =>
      intro st
      obtain ⟨h, t⟩ := p
      simp only [List.cons_append, runHand, List.append_eq, ih]

/-- A pinched hold phase: while the normalized pinch does not rise above the
release threshold, a pinching hand stays pinching, emits nothing, and keeps
its `lastPinchRelease`. -/
theorem runHand_hold (m : JsMath) (frames : List (GHand × ℚ)) :
    ∀ st : GHandState, st.pinch = true → st.events = [] →
      (∀ p ∈ frames, ¬ normalizedPinchOf m p.1 > PINCH_RELEASE_THRESHOLD) →
      (runHand m st frames).1.pinch = true ∧
      (runHand m st frames).1.events = [] ∧
      (runHand m st frames).1.lastPinchRelease = st.lastPinchRelease ∧
      (runHand m st frames).2 = frames.map (fun _ => ([] : List GEvent)) := by
  induction frames with
  | nil => intro st hp he _; exact ⟨hp, he, rfl, rfl⟩
  | cons p rest ih =>
      intro st hp he hband
      obtain ⟨h, t⟩ := p
      obtain ⟨f1, f2, f3⟩ := updateSingleHand_fields m h st t
      obtain ⟨g1, g2, g3⟩ := pinchStage_hold m h (motionStage h st t) t
        (by rw [motionStage_pinch]; exact hp)
        (hband (h, t) (List.mem_cons_self _ _))
      have h1 : (updateSingleHand m h st t).pinch = true := by rw [f1, g1]
      have h2 : (updateSingleHand m h st t).events = [] := by
        rw [f2, g2, motionStage_events, he]
      have h3 : (updateSingleHand m h st t).lastPinchRelease = st.lastPinchRelease := by
        rw [f3, g3, motionStage_lastPinchRelease]
      have ihr := ih { updateSingleHand m h st t with events := [] } h1 rfl
        (fun q hq => hband q (List.mem_cons_of_mem _ hq))
      refine ⟨ihr.1, ihr.2.1, ?_, ?_⟩
      · rw [runHand]
        dsimp only
        rw [ihr.2.2.1]
        exact h3
      · rw [runHand]
        dsimp only
        rw [ihr.2.2.2, h2]
        rfl

/-- A released phase: while the normalized pinch does not drop below the on
threshold, a non-pinching hand stays released, emits nothing, and keeps its
`lastPinchRelease`. -/
theorem runHand_released (m : JsMath) (frames : List (GHand × ℚ)) :
    ∀ st : GHandState, st.pinch = false → st.events = [] →
      (∀ p ∈ frames, ¬ normalizedPinchOf m p.1 < PINCH_THRESHOLD) →
      (runHand m st frames).1.pinch = false ∧
      (runHand m st frames).1.events = [] ∧
      (runHand m st frames).1.lastPinchRelease = st.lastPinchRelease ∧
      (runHand m st frames).2 = frames.map (fun _ => ([] : List GEvent)) := by
  induction frames with
  | nil => intro st hp he _; exact ⟨hp, he, rfl, rfl⟩
  | cons p rest ih =>
      intro st hp he hband
      obtain ⟨h, t⟩ := p
      obtain ⟨f1, f2, f3⟩ := updateSingleHand_fields m h st t
      obtain ⟨g1, g2, g3⟩ := pinchStage_released m h (motionStage h st t) t
        (by rw [motionStage_pinch]; exact hp)
        (hband (h, t) (List.mem_cons_self _ _))
      have h1 : (updateSingleHand m h st t).pinch = false := by rw [f1, g1]
      have h2 : (updateSingleHand m h st t).events = [] := by
        rw [f2, g2, motionStage_events, he]
      have h3 : (updateSingleHand m h st t).lastPinchRelease = st.lastPinchRelease := by
        rw [f3, g3, motionStage_lastPinchRelease]
      have ihr := ih { updateSingleHand m h st t with events := [] } h1 rfl
        (fun q hq => hband q (List.mem_cons_of_mem _ hq))
      refine ⟨ihr.1, ihr.2.1, ?_, ?_⟩
      · rw [runHand]
        dsimp only
        rw [ihr.2.2.1]
        exact h3
      · rw [runHand]
        dsimp only
        rw [ihr.2.2.2, h2]
        rfl

end GestCtl

namespace GestCtl

theorem runHand_cons (m : JsMath) (st : GHandState) (h : GHand) (t : ℚ)
    (rest : List (GHand × ℚ)) :
    runHand m st ((h, t) :: rest)
      = ((runHand m { updateSingleHand m h st t with events := [] } rest).1,
         (updateSingleHand m h st t).events
           :: (runHand m { updateSingleHand m h st t with events := [] } rest).2) := rfl

theorem updateSingleHand_press (m : JsMath) (h : GHand) (st : GHandState) (t : ℚ)
    (hp : st.pinch = false) (hnp : normalizedPinchOf m h < PINCH_THRESHOLD)
    (hw : ¬ t - st.lastPinchRelease < DOUBLE_PINCH_WINDOW) :
    (updateSingleHand m h st t).pinch = true ∧
    (updateSingleHand m h st t).events = st.events ++ [GEvent.pinchStart] ∧
    (updateSingleHand m h st t).lastPinchRelease = st.lastPinchRelease := by
  obtain ⟨f1, f2, f3⟩ := updateSingleHand_fields m h st t
  obtain ⟨g1, g2, g3⟩ := pinchStage_press m h (motionStage h st t) t
    (by rw [motionStage_pinch]; exact hp) hnp
    (by rw [motionStage_lastPinchRelease]; exact hw)
  refine ⟨f1.trans g1, ?_, ?_⟩
  · rw [f2, g2, motionStage_events]
  · rw [f3, g3, motionStage_lastPinchRelease]

theorem updateSingleHand_press_double (m : JsMath) (h : GHand) (st : GHandState) (t : ℚ)
    (hp : st.pinch = false) (hnp : normalizedPinchOf m h < PINCH_THRESHOLD)
    (hw : t - st.lastPinchRelease < DOUBLE_PINCH_WINDOW) :
    (updateSingleHand m h st t).pinch = true ∧
    (updateSingleHand m h st t).events
      = st.events ++ [GEvent.doublePinch, GEvent.pinchStart] ∧
    (updateSingleHand m h st t).lastPinchRelease = st.lastPinchRelease := by
  obtain ⟨f1, f2, f3⟩ := updateSingleHand_fields m h st t
  obtain ⟨g1, g2, g3⟩ := pinchStage_press_double m h (motionStage h st t) t
    (by rw [motionStage_pinch]; exact hp) hnp
    (by rw [motionStage_lastPinchRelease]; exact hw)
  refine ⟨f1.trans g1, ?_, ?_⟩
  · rw [f2, g2, motionStage_events]
  · rw [f3, g3, motionStage_lastPinchRelease]

theorem updateSingleHand_release (m : JsMath) (h : GHand) (st : GHandState) (t : ℚ)
    (hp : st.pinch = true) (hnp : normalizedPinchOf m h > PINCH_RELEASE_THRESHOLD) :
    (updateSingleHand m h st t).pinch = false ∧
    (updateSingleHand m h st t).events = st.events ++ [GEvent.pinchEnd] ∧
    (updateSingleHand m h st t).lastPinchRelease = t := by
  obtain ⟨f1, f2, f3⟩ := updateSingleHand_fields m h st t
  obtain ⟨g1, g2, g3⟩ := pinchStage_release m h (motionStage h st t) t
    (by rw [motionStage_pinch]; exact hp) hnp
  refine ⟨f1.trans g1, ?_, f3.trans g3⟩
  rw [f2, g2, motionStage_events]

end GestCtl

/-- Claim C3: in the gestures.js controller, two consecutive pinch
start-then-end cycles — each shorter than the double-pinch window, with the
gap from the first release to the second pinch start also shorter than that
window — emit exactly one `double-pinch` event, on the frame of the second
pinch start; and a single isolated pinch (no prior release within the
window) emits none.  Phases `P1`, `G`, `P2` are arbitrary runs of hold /
released frames between the threshold crossings. -/
theorem C3_double_pinch_exactly_once (m : JsMath) (st0 : GestCtl.GHandState)
    (A R1 B R2 : GestCtl.GHand) (P1 G P2 : List (GestCtl.GHand × ℚ))
    (tA t2 t3 t4 : ℚ)
    (hpinch0 : st0.pinch = false) (hev0 : st0.events = [])
    (hA : GestCtl.normalizedPinchOf m A < GestCtl.PINCH_THRESHOLD)
    (hP1 : ∀ p ∈ P1, ¬ GestCtl.normalizedPinchOf m p.1 > GestCtl.PINCH_RELEASE_THRESHOLD)
    (hR1 : GestCtl.normalizedPinchOf m R1 > GestCtl.PINCH_RELEASE_THRESHOLD)
    (hG : ∀ p ∈ G, ¬ GestCtl.normalizedPinchOf m p.1 < GestCtl.PINCH_THRESHOLD)
    (hB : GestCtl.normalizedPinchOf m B < GestCtl.PINCH_THRESHOLD)
    (hP2 : ∀ p ∈ P2, ¬ GestCtl.normalizedPinchOf m p.1 > GestCtl.PINCH_RELEASE_THRESHOLD)
    (hR2 : GestCtl.normalizedPinchOf m R2 > GestCtl.PINCH_RELEASE_THRESHOLD)
    (hfirst : ¬ tA - st0.lastPinchRelease < GestCtl.DOUBLE_PINCH_WINDOW)
    (_hcycle1 : t2 - tA < GestCtl.DOUBLE_PINCH_WINDOW)
    (hgap : t3 - t2 < GestCtl.DOUBLE_PINCH_WINDOW)
    (_hcycle2 : t4 - t3 < GestCtl.DOUBLE_PINCH_WINDOW) :
    (GestCtl.runHand m st0
        ((A, tA) :: (P1 ++ (R1, t2) :: (G ++ (B, t3) :: (P2 ++ [(R2, t4)]))))).2
      = [GestCtl.GEvent.pinchStart] :: (P1.map (fun _ => []) ++ [GestCtl.GEvent.pinchEnd]
          :: (G.map (fun _ => [])
              ++ [GestCtl.GEvent.doublePinch, GestCtl.GEvent.pinchStart]
            :: (P2.map (fun _ => []) ++ [[GestCtl.GEvent.pinchEnd]]))) ∧
    (GestCtl.runHand m st0 ((A, tA) :: (P1 ++ [(R1, t2)]))).2
      = [GestCtl.GEvent.pinchStart] :: (P1.map (fun _ => []) ++ [[GestCtl.GEvent.pinchEnd]]) := by
  -- frame A: first pinch start, no double pinch
  obtain ⟨a1, a2, a3⟩ := GestCtl.updateSingleHand_press m A st0 tA hpinch0 hA hfirst
  rw [GestCtl.runHand_cons]
  rw [GestCtl.runHand_cons]
  rw [a2, hev0]
  -- state threaded into P1
  have sA1 : ({ GestCtl.updateSingleHand m A st0 tA with events := [] } : GestCtl.GHandState).pinch
      = true := a1
  have sA3 : ({ GestCtl.updateSingleHand m A st0 tA with events := [] } : GestCtl.GHandState).lastPinchRelease
      = st0.lastPinchRelease := a3
  -- hold through P1
  obtain ⟨p1a, p1b, p1c, p1d⟩ := GestCtl.runHand_hold m P1
    { GestCtl.updateSingleHand m A st0 tA with events := [] } sA1 rfl hP1
  -- split off P1
  rw [GestCtl.runHand_append m P1 ((R1, t2) :: (G ++ (B, t3) :: (P2 ++ [(R2, t4)])))]
  rw [GestCtl.runHand_append m P1 [(R1, t2)]]
  rw [p1d]
  -- frame R1: first release
  obtain ⟨r1a, r1b, r1c⟩ := GestCtl.updateSingleHand_release m R1
    (GestCtl.runHand m { GestCtl.updateSingleHand m A st0 tA with events := [] } P1).1 t2
    p1a hR1
  rw [GestCtl.runHand_cons]
  rw [GestCtl.runHand_cons]
  rw [r1b, p1b]
  refine ⟨?_, rfl⟩
  -- state threaded into G
  have sR1 : ({ GestCtl.updateSingleHand m R1
      (GestCtl.runHand m { GestCtl.updateSingleHand m A st0 tA with events := [] } P1).1 t2
      with events := [] } : GestCtl.GHandState).pinch = false := r1a
  have sR3 : ({ GestCtl.updateSingleHand m R1
      (GestCtl.runHand m { GestCtl.updateSingleHand m A st0 tA with events := [] } P1).1 t2
      with events := [] } : GestCtl.GHandState).lastPinchRelease = t2 := r1c
  -- released through G
  obtain ⟨g1a, g1b, g1c, g1d⟩ := GestCtl.runHand_released m G
    { GestCtl.updateSingleHand m R1
        (GestCtl.runHand m { GestCtl.updateSingleHand m A st0 tA with events := [] } P1).1 t2
      with events := [] } sR1 rfl hG
  rw [GestCtl.runHand_append m G ((B, t3) :: (P2 ++ [(R2, t4)]))]
  rw [g1d]
  -- frame B: second pinch start, inside the double-pinch window
  have hBw : t3 - (GestCtl.runHand m
      { GestCtl.updateSingleHand m R1
          (GestCtl.runHand m { GestCtl.updateSingleHand m A st0 tA with events := [] } P1).1 t2
        with events := [] } G).1.lastPinchRelease < GestCtl.DOUBLE_PINCH_WINDOW := by
    rw [g1c, sR3]
    exact hgap
  obtain ⟨b1, b2, b3⟩ := GestCtl.updateSingleHand_press_double m B
    (GestCtl.runHand m
      { GestCtl.updateSingleHand m R1
          (GestCtl.runHand m { GestCtl.updateSingleHand m A st0 tA with events := [] } P1).1 t2
        with events := [] } G).1 t3 g1a hB hBw
  rw [GestCtl.runHand_cons]
  rw [b2, g1b]
  -- state threaded into P2
  have sB1 : ({ GestCtl.updateSingleHand m B
      (GestCtl.runHand m
        { GestCtl.updateSingleHand m R1
            (GestCtl.runHand m { GestCtl.updateSingleHand m A st0 tA with events := [] } P1).1 t2
          with events := [] } G).1 t3 with events := [] } : GestCtl.GHandState).pinch = true := b1
  -- hold through P2
  obtain ⟨p2a, p2b, p2c, p2d⟩ := GestCtl.runHand_hold m P2
    { GestCtl.updateSingleHand m B
        (GestCtl.runHand m
          { GestCtl.updateSingleHand m R1
              (GestCtl.runHand m { GestCtl.updateSingleHand m A st0 tA with events := [] } P1).1 t2
            with events := [] } G).1 t3 with events := [] } sB1 rfl hP2
  rw [GestCtl.runHand_append m P2 [(R2, t4)]]
  rw [p2d]
  -- frame R2: second release
  obtain ⟨r2a, r2b, r2c⟩ := GestCtl.updateSingleHand_release m R2
    (GestCtl.runHand m
      { GestCtl.updateSingleHand m B
          (GestCtl.runHand m
            { GestCtl.updateSingleHand m R1
                (GestCtl.runHand m { GestCtl.updateSingleHand m A st0 tA with events := [] } P1).1 t2
              with events := [] } G).1 t3 with events := [] } P2).1 t4 p2a hR2
  rw [GestCtl.runHand_cons]
  rw [r2b, p2b]
  rfl

/-- A hand whose thumb tip and index tip coincide (normalized pinch 0). -/
def pressHandG : GestCtl.GHand :=
  ⟨fun i => if i = 5 then ⟨1, 0, 0⟩ else ⟨0, 0, 0⟩⟩

/-- A hand whose normalized pinch under `witnessM` is 1 (released). -/
def releaseHandG : GestCtl.GHand :=
  ⟨fun i => if i = 5 ∨ i = 4 then ⟨1, 0, 0⟩ else ⟨0, 0, 0⟩⟩

theorem pressHandG_np : GestCtl.normalizedPinchOf witnessM pressHandG = 0 := by
  have e0 : pressHandG.screenLandmarks 0 = ⟨0, 0, 0⟩ := rfl
  have e4 : pressHandG.screenLandmarks 4 = ⟨0, 0, 0⟩ := rfl
  have e5 : pressHandG.screenLandmarks 5 = ⟨1, 0, 0⟩ := rfl
  have e8 : pressHandG.screenLandmarks 8 = ⟨0, 0, 0⟩ := rfl
  norm_num [GestCtl.normalizedPinchOf, GestCtl.distance, witnessM, e0, e4, e5, e8]

theorem releaseHandG_np : GestCtl.normalizedPinchOf witnessM releaseHandG = 1 := by
  have e0 : releaseHandG.screenLandmarks 0 = ⟨0, 0, 0⟩ := rfl
  have e4 : releaseHandG.screenLandmarks 4 = ⟨1, 0, 0⟩ := rfl
  have e5 : releaseHandG.screenLandmarks 5 = ⟨1, 0, 0⟩ := rfl
  have e8 : releaseHandG.screenLandmarks 8 = ⟨0, 0, 0⟩ := rfl
  norm_num [GestCtl.normalizedPinchOf, GestCtl.distance, witnessM, e0, e4, e5, e8]

theorem C3_double_pinch_exactly_once_witness :
    (GestCtl.runHand witnessM (GestCtl.defaultHandState "Left")
        ((pressHandG, 1000) :: (([] : List (GestCtl.GHand × ℚ))
          ++ (releaseHandG, 1100) :: (([] : List (GestCtl.GHand × ℚ))
          ++ (pressHandG, 1200) :: (([] : List (GestCtl.GHand × ℚ))
          ++ [(releaseHandG, 1300)]))))).2
      = [GestCtl.GEvent.pinchStart]
          :: (([] : List (GestCtl.GHand × ℚ)).map (fun _ => [])
            ++ [GestCtl.GEvent.pinchEnd]
          :: (([] : List (GestCtl.GHand × ℚ)).map (fun _ => [])
            ++ [GestCtl.GEvent.doublePinch, GestCtl.GEvent.pinchStart]
          :: (([] : List (GestCtl.GHand × ℚ)).map (fun _ => [])
            ++ [[GestCtl.GEvent.pinchEnd]]))) ∧
    (GestCtl.runHand witnessM (GestCtl.defaultHandState "Left")
        ((pressHandG, 1000) :: (([] : List (GestCtl.GHand × ℚ)) ++ [(releaseHandG, 1100)]))).2
      = [GestCtl.GEvent.pinchStart]
          :: (([] : List (GestCtl.GHand × ℚ)).map (fun _ => [])
            ++ [[GestCtl.GEvent.pinchEnd]]) :=
  C3_double_pinch_exactly_once witnessM (GestCtl.defaultHandState "Left")
    pressHandG releaseHandG pressHandG releaseHandG [] [] [] 1000 1100 1200 1300
    rfl rfl
    (by rw [pressHandG_np]; norm_num [GestCtl.PINCH_THRESHOLD])
    (by intro p hp; cases hp)
    (by rw [releaseHandG_np]; norm_num [GestCtl.PINCH_RELEASE_THRESHOLD])
    (by intro p hp; cases hp)
    (by rw [pressHandG_np]; norm_num [GestCtl.PINCH_THRESHOLD])
    (by intro p hp; cases hp)
    (by rw [releaseHandG_np]; norm_num [GestCtl.PINCH_RELEASE_THRESHOLD])
    (by norm_num [GestCtl.defaultHandState, GestCtl.DOUBLE_PINCH_WINDOW])
    (by norm_num [GestCtl.DOUBLE_PINCH_WINDOW])
    (by norm_num [GestCtl.DOUBLE_PINCH_WINDOW])
    (by norm_num [GestCtl.DOUBLE_PINCH_WINDOW])

/-! ## Pinch point and filter reseeding (claim C8) -/

namespace GestCtl

theorem postureStage_pinchFilterX (m : JsMath) (h : GHand) (st : GHandState) :
    (postureStage m h st).pinchFilterX = st.pinchFilterX := rfl

theorem postureStage_pinchFilterY (m : JsMath) (h : GHand) (st : GHandState) :
    (postureStage m h st).pinchFilterY = st.pinchFilterY := rfl

theorem postureStage_pinchFilterZ (m : JsMath) (h : GHand) (st : GHandState) :
    (postureStage m h st).pinchFilterZ = st.pinchFilterZ := rfl

theorem pinchStage_point_on (m : JsMath) (h : GHand) (st : GHandState) (t : ℚ)
    (hOn : st.pinch = false ∧ normalizedPinchOf m h < PINCH_THRESHOLD) :
    (pinchStage m h st t).pinchPoint
      = some ⟨(st.pinchFilterX.filter (h.screenLandmarks 8).x t).2,
              (st.pinchFilterY.filter (h.screenLandmarks 8).y t).2,
              (st.pinchFilterZ.filter (h.screenLandmarks 8).z t).2⟩ ∧
    (pinchStage m h st t).pinchFilterX = (st.pinchFilterX.filter (h.screenLandmarks 8).x t).1 ∧
    (pinchStage m h st t).pinchFilterY = (st.pinchFilterY.filter (h.screenLandmarks 8).y t).1 ∧
    (pinchStage m h st t).pinchFilterZ = (st.pinchFilterZ.filter (h.screenLandmarks 8).z t).1 := by
  unfold pinchStage
  dsimp only
  rw [if_pos hOn]
  by_cases hW : t - st.lastPinchRelease < DOUBLE_PINCH_WINDOW
  · rw [if_pos hW]
    exact ⟨rfl, rfl, rfl, rfl⟩
  · rw [if_neg hW]
    exact ⟨rfl, rfl, rfl, rfl⟩

theorem pinchStage_point_hold (m : JsMath) (h : GHand) (st : GHandState) (t : ℚ)
    (hp : st.pinch = true) (hnp : ¬ normalizedPinchOf m h > PINCH_RELEASE_THRESHOLD) :
    (pinchStage m h st t).pinchPoint
      = some ⟨(st.pinchFilterX.filter (h.screenLandmarks 8).x t).2,
              (st.pinchFilterY.filter (h.screenLandmarks 8).y t).2,
              (st.pinchFilterZ.filter (h.screenLandmarks 8).z t).2⟩ ∧
    (pinchStage m h st t).pinchFilterX = (st.pinchFilterX.filter (h.screenLandmarks 8).x t).1 ∧
    (pinchStage m h st t).pinchFilterY = (st.pinchFilterY.filter (h.screenLandmarks 8).y t).1 ∧
    (pinchStage m h st t).pinchFilterZ = (st.pinchFilterZ.filter (h.screenLandmarks 8).z t).1 := by
  unfold pinchStage
  dsimp only
  have hnot1 : ¬(st.pinch = false ∧ normalizedPinchOf m h < PINCH_THRESHOLD) := by
    rintro ⟨hf, -⟩
    rw [hp] at hf
    cases hf
  have hnot2 : ¬(st.pinch = true ∧ normalizedPinchOf m h > PINCH_RELEASE_THRESHOLD) := by
    rintro ⟨-, hgt⟩
    exact hnp hgt
  rw [if_neg hnot1, if_neg hnot2]
  simp [hp]

theorem pinchStage_filters_off (m : JsMath) (h : GHand) (st : GHandState) (t : ℚ)
    (hp : st.pinch = true) (hnp : normalizedPinchOf m h > PINCH_RELEASE_THRESHOLD) :
    (pinchStage m h st t).pinchPoint = none ∧
    (pinchStage m h st t).pinchFilterX = st.pinchFilterX ∧
    (pinchStage m h st t).pinchFilterY = st.pinchFilterY ∧
    (pinchStage m h st t).pinchFilterZ = st.pinchFilterZ := by
  unfold pinchStage
  dsimp only
  have hnot1 : ¬(st.pinch = false ∧ normalizedPinchOf m h < PINCH_THRESHOLD) := by
    rintro ⟨hf, -⟩
    rw [hp] at hf
    cases hf
  have hcond : st.pinch = true ∧ normalizedPinchOf m h > PINCH_RELEASE_THRESHOLD := ⟨hp, hnp⟩
  rw [if_neg hnot1, if_pos hcond]
  exact ⟨rfl, rfl, rfl, rfl⟩

/-- A pinch-starting frame: the hand turns pinching and the pinch point is
the index tip passed through the state's existing (not reseeded) filters,
whose stepped states are stored back. -/
theorem updateSingleHand_on (m : JsMath) (h : GHand) (st : GHandState) (t : ℚ)
    (hp : st.pinch = false) (hnp : normalizedPinchOf m h < PINCH_THRESHOLD) :
    (updateSingleHand m h st t).pinch = true ∧
    (updateSingleHand m h st t).pinchPoint
      = some ⟨(st.pinchFilterX.filter (h.screenLandmarks 8).x t).2,
              (st.pinchFilterY.filter (h.screenLandmarks 8).y t).2,
              (st.pinchFilterZ.filter (h.screenLandmarks 8).z t).2⟩ ∧
    (updateSingleHand m h st t).pinchFilterX
      = (st.pinchFilterX.filter (h.screenLandmarks 8).x t).1 ∧
    (updateSingleHand m h st t).pinchFilterY
      = (st.pinchFilterY.filter (h.screenLandmarks 8).y t).1 ∧
    (updateSingleHand m h st t).pinchFilterZ
      = (st.pinchFilterZ.filter (h.screenLandmarks 8).z t).1 := by
  have hOn : (motionStage h st t).pinch = false ∧ normalizedPinchOf m h < PINCH_THRESHOLD := by
    rw [motionStage_pinch]
    exact ⟨hp, hnp⟩
  obtain ⟨q1, q2, q3, q4⟩ := pinchStage_point_on m h (motionStage h st t) t hOn
  have hpc : (updateSingleHand m h st t).pinch = true := by
    rw [updateSingleHand_pinch]
    rw [if_pos ⟨hp, hnp⟩]
  refine ⟨hpc, ?_, ?_, ?_, ?_⟩
  · show (postureStage m h (pinchStage m h (motionStage h st t) t)).pinchPoint = _
    rw [postureStage_pinchPoint, q1, motionStage_pinchFilterX, motionStage_pinchFilterY,
      motionStage_pinchFilterZ]
  · show (postureStage m h (pinchStage m h (motionStage h st t) t)).pinchFilterX = _
    rw [postureStage_pinchFilterX, q2, motionStage_pinchFilterX]
  · show (postureStage m h (pinchStage m h (motionStage h st t) t)).pinchFilterY = _
    rw [postureStage_pinchFilterY, q3, motionStage_pinchFilterY]
  · show (postureStage m h (pinchStage m h (motionStage h st t) t)).pinchFilterZ = _
    rw [postureStage_pinchFilterZ, q4, motionStage_pinchFilterZ]

/-- A releasing frame keeps the filter states untouched (they are stepped
only while pinching). -/
theorem updateSingleHand_off (m : JsMath) (h : GHand) (st : GHandState) (t : ℚ)
    (hp : st.pinch = true) (hnp : normalizedPinchOf m h > PINCH_RELEASE_THRESHOLD) :
    (updateSingleHand m h st t).pinch = false ∧
    (updateSingleHand m h st t).pinchPoint = none ∧
    (updateSingleHand m h st t).pinchFilterX = st.pinchFilterX ∧
    (updateSingleHand m h st t).pinchFilterY = st.pinchFilterY ∧
    (updateSingleHand m h st t).pinchFilterZ = st.pinchFilterZ := by
  obtain ⟨q1, q2, q3, q4⟩ := pinchStage_filters_off m h (motionStage h st t) t
    (by rw [motionStage_pinch]; exact hp) hnp
  have hpc : (updateSingleHand m h st t).pinch = false := by
    rw [updateSingleHand_pinch]
    have hnot1 : ¬(st.pinch = false ∧ normalizedPinchOf m h < PINCH_THRESHOLD) := by
      rintro ⟨hf, -⟩
      rw [hp] at hf
      cases hf
    rw [if_neg hnot1, if_pos ⟨hp, hnp⟩]
  refine ⟨hpc, ?_, ?_, ?_, ?_⟩
  · show (postureStage m h (pinchStage m h (motionStage h st t) t)).pinchPoint = _
    rw [postureStage_pinchPoint, q1]
  · show (postureStage m h (pinchStage m h (motionStage h st t) t)).pinchFilterX = _
    rw [postureStage_pinchFilterX, q2, motionStage_pinchFilterX]
  · show (postureStage m h (pinchStage m h (motionStage h st t) t)).pinchFilterY = _
    rw [postureStage_pinchFilterY, q3, motionStage_pinchFilterY]
  · show (postureStage m h (pinchStage m h (motionStage h st t) t)).pinchFilterZ = _
    rw [postureStage_pinchFilterZ, q4, motionStage_pinchFilterZ]

/-- A pinch-holding frame also reports the index tip through the state's
existing filters. -/
theorem updateSingleHand_point_hold (m : JsMath) (h : GHand) (st : GHandState) (t : ℚ)
    (hp : st.pinch = true) (hnp : ¬ normalizedPinchOf m h > PINCH_RELEASE_THRESHOLD) :
    (updateSingleHand m h st t).pinchPoint
      = some ⟨(st.pinchFilterX.filter (h.screenLandmarks 8).x t).2,
              (st.pinchFilterY.filter (h.screenLandmarks 8).y t).2,
              (st.pinchFilterZ.filter (h.screenLandmarks 8).z t).2⟩ := by
  obtain ⟨q1, -, -, -⟩ := pinchStage_point_hold m h (motionStage h st t) t
    (by rw [motionStage_pinch]; exact hp) hnp
  show (postureStage m h (pinchStage m h (motionStage h st t) t)).pinchPoint = _
  rw [postureStage_pinchPoint, q1, motionStage_pinchFilterX, motionStage_pinchFilterY,
    motionStage_pinchFilterZ]

end GestCtl

/-- A hand pinching (thumb tip on index tip) at index-tip x = 1/2. -/
def pressHandP2 : GestCtl.GHand :=
  ⟨fun i => if i = 5 then ⟨1, 0, 0⟩ else if i = 8 ∨ i = 4 then ⟨1/2, 0, 0⟩ else ⟨0, 0, 0⟩⟩

theorem pressHandP2_np : GestCtl.normalizedPinchOf witnessM pressHandP2 = 0 := by
  have e0 : pressHandP2.screenLandmarks 0 = ⟨0, 0, 0⟩ := rfl
  have e4 : pressHandP2.screenLandmarks 4 = ⟨1/2, 0, 0⟩ := rfl
  have e5 : pressHandP2.screenLandmarks 5 = ⟨1, 0, 0⟩ := rfl
  have e8 : pressHandP2.screenLandmarks 8 = ⟨1/2, 0, 0⟩ := rfl
  norm_num [GestCtl.normalizedPinchOf, GestCtl.distance, witnessM, e0, e4, e5, e8]

/-- Claim C8's counterexample: pinch at t=1000 with index tip at x = 0,
release at t=1100, pinch again at t=1200 with index tip at x = 1/2.  Were
the filters reseeded at the start of the new pinch, its first frame would
report the raw index tip (a fresh filter's first call returns its input
unchanged), i.e. x = 1/2.  The code keeps the filter state from the first
pinch, and the reported x is not 1/2 (it is ≈ 0.302). -/
theorem C8_counterexample_filters_not_reseeded :
    (GestCtl.runHand witnessM (GestCtl.defaultHandState "Left")
        [(pressHandG, 1000), (releaseHandG, 1100), (pressHandP2, 1200)]).1.pinch = true ∧
    ∀ p : Point,
      (GestCtl.runHand witnessM (GestCtl.defaultHandState "Left")
          [(pressHandG, 1000), (releaseHandG, 1100), (pressHandP2, 1200)]).1.pinchPoint
        = some p → p.x ≠ 1/2 := by
  obtain ⟨h1p, -, h1x, -, -⟩ := GestCtl.updateSingleHand_on witnessM pressHandG
    (GestCtl.defaultHandState "Left") 1000 rfl
    (by rw [pressHandG_np]; norm_num [GestCtl.PINCH_THRESHOLD])
  obtain ⟨h2p, -, h2x, -, -⟩ := GestCtl.updateSingleHand_off witnessM releaseHandG
    { GestCtl.updateSingleHand witnessM pressHandG (GestCtl.defaultHandState "Left") 1000
      with events := [] } 1100 h1p
    (by rw [releaseHandG_np]; norm_num [GestCtl.PINCH_RELEASE_THRESHOLD])
  obtain ⟨h3p, h3pt, -, -, -⟩ := GestCtl.updateSingleHand_on witnessM pressHandP2
    { GestCtl.updateSingleHand witnessM releaseHandG
        { GestCtl.updateSingleHand witnessM pressHandG (GestCtl.defaultHandState "Left") 1000
          with events := [] } 1100 with events := [] } 1200 h2p
    (by rw [pressHandP2_np]; norm_num [GestCtl.PINCH_THRESHOLD])
  have hfiltX : ({ GestCtl.updateSingleHand witnessM releaseHandG
      { GestCtl.updateSingleHand witnessM pressHandG (GestCtl.defaultHandState "Left") 1000
        with events := [] } 1100 with events := [] } : GestCtl.GHandState).pinchFilterX
      = ⟨12/10, 1/100, 1, some 1000, some 0, 0⟩ := by
    show (GestCtl.updateSingleHand witnessM releaseHandG
      { GestCtl.updateSingleHand witnessM pressHandG (GestCtl.defaultHandState "Left") 1000
        with events := [] } 1100).pinchFilterX = _
    rw [h2x]
    show (GestCtl.updateSingleHand witnessM pressHandG
      (GestCtl.defaultHandState "Left") 1000).pinchFilterX = _
    rw [h1x]
    rfl
  have hxval : ((⟨12/10, 1/100, 1, some 1000, some 0, 0⟩ :
      GestCtl.OneEuroFilter).filter ((pressHandP2.screenLandmarks 8).x) 1200).2
      = 2727355761923081294545899004513 / 9030495680629297945185640072386 := by
    have e8 : pressHandP2.screenLandmarks 8 = ⟨1/2, 0, 0⟩ := rfl
    rw [e8]
    norm_num [GestCtl.OneEuroFilter.filter, GestCtl.OneEuroFilter.alpha, jsPI, abs, max_def]
  constructor
  · exact h3p
  · intro p hp
    have hpt : (GestCtl.runHand witnessM (GestCtl.defaultHandState "Left")
        [(pressHandG, 1000), (releaseHandG, 1100), (pressHandP2, 1200)]).1.pinchPoint
        = (GestCtl.updateSingleHand witnessM pressHandP2
            { GestCtl.updateSingleHand witnessM releaseHandG
                { GestCtl.updateSingleHand witnessM pressHandG
                    (GestCtl.defaultHandState "Left") 1000 with events := [] } 1100
              with events := [] } 1200).pinchPoint := rfl
    rw [hpt, h3pt, hfiltX] at hp
    have := Option.some.inj hp
    have hx : p.x = ((⟨12/10, 1/100, 1, some 1000, some 0, 0⟩ :
        GestCtl.OneEuroFilter).filter ((pressHandP2.screenLandmarks 8).x) 1200).2 := by
      rw [← this]
    rw [hx, hxval]
    norm_num

/-- Claim C8 as amended: on every frame on which the hand is pinching after
the update, the reported pinch point is the index-tip position passed
through the hand state's per-axis smoothing filters — but those filters are
the ones carried in the hand state, created once by `defaultHandState` and
never reseeded at a pinch start, so their state persists from one pinch to
the next while the hand stays tracked.  (In the utils.js controller variant
the emitted drawing point is the raw index tip; smoothing there happens
upstream in the hand tracker.) -/
theorem C8_amended_pinch_point_filtered_without_reseed (m : JsMath) (h : GestCtl.GHand)
    (st : GestCtl.GHandState) (t : ℚ)
    (hpinch : (GestCtl.updateSingleHand m h st t).pinch = true) :
    (GestCtl.updateSingleHand m h st t).pinchPoint
      = some ⟨(st.pinchFilterX.filter (h.screenLandmarks 8).x t).2,
              (st.pinchFilterY.filter (h.screenLandmarks 8).y t).2,
              (st.pinchFilterZ.filter (h.screenLandmarks 8).z t).2⟩ := by
  by_cases hOn : st.pinch = false ∧ GestCtl.normalizedPinchOf m h < GestCtl.PINCH_THRESHOLD
  · exact (GestCtl.updateSingleHand_on m h st t hOn.1 hOn.2).2.1
  · have hchar := GestCtl.updateSingleHand_pinch m h st t
    rw [hpinch, if_neg hOn] at hchar
    by_cases hOff : st.pinch = true ∧
        GestCtl.normalizedPinchOf m h > GestCtl.PINCH_RELEASE_THRESHOLD
    · rw [if_pos hOff] at hchar
      cases hchar
    · rw [if_neg hOff] at hchar
      have hp : st.pinch = true := hchar.symm
      have hnp : ¬ GestCtl.normalizedPinchOf m h > GestCtl.PINCH_RELEASE_THRESHOLD :=
        fun hgt => hOff ⟨hp, hgt⟩
      exact GestCtl.updateSingleHand_point_hold m h st t hp hnp

theorem C8_amended_pinch_point_filtered_without_reseed_witness :
    (GestCtl.updateSingleHand witnessM pressHandG (GestCtl.defaultHandState "Left") 1000).pinchPoint
      = some ⟨((GestCtl.defaultHandState "Left").pinchFilterX.filter
                 ((pressHandG.screenLandmarks 8).x) 1000).2,
              ((GestCtl.defaultHandState "Left").pinchFilterY.filter
                 ((pressHandG.screenLandmarks 8).y) 1000).2,
              ((GestCtl.defaultHandState "Left").pinchFilterZ.filter
                 ((pressHandG.screenLandmarks 8).z) 1000).2⟩ :=
  C8_amended_pinch_point_filtered_without_reseed witnessM pressHandG
    (GestCtl.defaultHandState "Left") 1000
    (by
      rw [GestCtl.updateSingleHand_pinch]
      have hOn : (GestCtl.defaultHandState "Left").pinch = false ∧
          GestCtl.normalizedPinchOf witnessM pressHandG < GestCtl.PINCH_THRESHOLD :=
        ⟨rfl, by rw [pressHandG_np]; norm_num [GestCtl.PINCH_THRESHOLD]⟩
      rw [if_pos hOn])

/-! ## Two-hand priority (claim C6) -/

namespace UtilsCtl

theorem globalStep_ev_drawing_scene (t : ℚ) (acc : GAcc) (k : ℕ) :
    (globalStep t acc k).ev.drawing = acc.ev.drawing ∧
    (globalStep t acc k).ev.scene = acc.ev.scene :=
  ⟨rfl, rfl⟩

theorem foldl_globalStep_ev_drawing_scene (t : ℚ) (keys : List ℕ) :
    ∀ acc : GAcc,
      ((keys.foldl (globalStep t) acc).ev.drawing = acc.ev.drawing) ∧
      ((keys.foldl (globalStep t) acc).ev.scene = acc.ev.scene) := by
  induction keys with
  | nil => intro acc; exact ⟨rfl, rfl⟩
  | cons k rest ih =>
      intro acc
      obtain ⟨h1, h2⟩ := globalStep_ev_drawing_scene t acc k
      obtain ⟨h3, h4⟩ := ih (globalStep t acc k)
      exact ⟨h3.trans h1, h4.trans h2⟩

theorem twoHandPhase_ev_drawing (m : JsMath) (states : List (ℕ × HandState)) (k1 k2 : ℕ)
    (session : Option Session) (ev : Events) :
    (twoHandPhase m states k1 k2 session ev).2.drawing = ev.drawing ∧
    (twoHandPhase m states k1 k2 session ev).2.scene.rotate.x = ev.scene.rotate.x ∧
    (twoHandPhase m states k1 k2 session ev).2.scene.rotate.y = ev.scene.rotate.y := by
  unfold twoHandPhase
  dsimp only
  cases session <;> exact ⟨rfl, rfl, rfl⟩

end UtilsCtl

/-- Claim C6: on every frame on which exactly two hands are simultaneously
pinching, the emitted bundle carries no single-hand rotation
(`rotate.x = rotate.y = 0`) and no drawing activity (not active, not
just-started, not just-ended): the two-hand branch takes priority. -/
theorem C6_two_hand_suppresses_single_hand (m : JsMath) (s : UtilsCtl.CState)
    (hands : List UtilsCtl.Hand) (t : ℚ) (k1 k2 : ℕ)
    (hpk : UtilsCtl.pinchKeysOf (UtilsCtl.analyzeAll m s.handStates hands t)
        (hands.map (fun h => h.index)) = [k1, k2]) :
    (UtilsCtl.processU m s hands t).2.scene.rotate.x = 0 ∧
    (UtilsCtl.processU m s hands t).2.scene.rotate.y = 0 ∧
    (UtilsCtl.processU m s hands t).2.drawing.active = false ∧
    (UtilsCtl.processU m s hands t).2.drawing.justStarted = false ∧
    (UtilsCtl.processU m s hands t).2.drawing.justEnded = false := by
  unfold UtilsCtl.processU
  dsimp only
  rw [hpk]
  dsimp only
  obtain ⟨d1, d2, d3⟩ := UtilsCtl.twoHandPhase_ev_drawing m
    (UtilsCtl.analyzeAll m s.handStates hands t) k1 k2 s.twoHandSession
    { UtilsCtl.initEvents s.tool with
      info := { pinchHands := ([k1, k2] : List ℕ).length } }
  obtain ⟨f1, f2⟩ := UtilsCtl.foldl_globalStep_ev_drawing_scene t
    (hands.map (fun h => h.index))
    ⟨UtilsCtl.analyzeAll m s.handStates hands t, s.tool, s.lastPanelsToggle,
     s.lastPauseToggle, s.lastScreenshot, s.lastShapeSwipe,
     (UtilsCtl.twoHandPhase m (UtilsCtl.analyzeAll m s.handStates hands t) k1 k2
        s.twoHandSession
        { UtilsCtl.initEvents s.tool with
          info := { pinchHands := ([k1, k2] : List ℕ).length } }).2⟩
  refine ⟨?_, ?_, ?_, ?_, ?_⟩
  · show (_ : UtilsCtl.Events).scene.rotate.x = 0
    rw [f2, d2]
    rfl
  · show (_ : UtilsCtl.Events).scene.rotate.y = 0
    rw [f2, d3]
    rfl
  · show (_ : UtilsCtl.Events).drawing.active = false
    rw [f1, d1]
    rfl
  · show (_ : UtilsCtl.Events).drawing.justStarted = false
    rw [f1, d1]
    rfl
  · show (_ : UtilsCtl.Events).drawing.justEnded = false
    rw [f1, d1]
    rfl

/-- A hand (with a chosen tracking index) whose utils.js pinch ratio under
`witnessM` is 0: thumb tip on index tip, knuckle landmarks giving span 1. -/
def pinchHandU (idx : ℕ) : UtilsCtl.Hand :=
  ⟨idx, fun i => if i = 5 ∨ i = 9 ∨ i = 13 then ⟨1, 0, 0⟩ else ⟨0, 0, 0⟩⟩

theorem pinchHandU_ratio (idx : ℕ) : UtilsCtl.pinchRatioOf witnessM (pinchHandU idx) = 0 := by
  have e0 : (pinchHandU idx).landmarks 0 = ⟨0, 0, 0⟩ := rfl
  have e4 : (pinchHandU idx).landmarks 4 = ⟨0, 0, 0⟩ := rfl
  have e5 : (pinchHandU idx).landmarks 5 = ⟨1, 0, 0⟩ := rfl
  have e8 : (pinchHandU idx).landmarks 8 = ⟨0, 0, 0⟩ := rfl
  have e9 : (pinchHandU idx).landmarks 9 = ⟨1, 0, 0⟩ := rfl
  have e13 : (pinchHandU idx).landmarks 13 = ⟨1, 0, 0⟩ := rfl
  norm_num [UtilsCtl.pinchRatioOf, UtilsCtl.referenceSpan, distance2D, witnessM,
    e0, e4, e5, e8, e9, e13]

theorem pinchHandU_starts (idx : ℕ) (st : UtilsCtl.HandState) (hst : st.pinch = false)
    (t : ℚ) : (UtilsCtl.analyzeHandState witnessM st (pinchHandU idx) t).pinch = true := by
  rw [UtilsCtl.analyzeHandState_pinch,
    if_pos ⟨hst, by rw [pinchHandU_ratio]; norm_num [UtilsCtl.PINCH_ON]⟩]

/-- With two fresh pinching hands, both analyzed states are pinching. -/
theorem pinchPairKeys :
    UtilsCtl.pinchKeysOf
      (UtilsCtl.analyzeAll witnessM UtilsCtl.initState.handStates
        [pinchHandU 0, pinchHandU 1] 1000)
      (([pinchHandU 0, pinchHandU 1] : List UtilsCtl.Hand).map (fun h => h.index))
      = [0, 1] := by
  have h0 : (UtilsCtl.lookupState
      (UtilsCtl.analyzeAll witnessM UtilsCtl.initState.handStates
        [pinchHandU 0, pinchHandU 1] 1000) 0).pinch = true := by
    show (UtilsCtl.analyzeHandState witnessM UtilsCtl.initHandState (pinchHandU 0) 1000).pinch
      = true
    exact pinchHandU_starts 0 _ rfl 1000
  have h1 : (UtilsCtl.lookupState
      (UtilsCtl.analyzeAll witnessM UtilsCtl.initState.handStates
        [pinchHandU 0, pinchHandU 1] 1000) 1).pinch = true := by
    show (UtilsCtl.analyzeHandState witnessM UtilsCtl.initHandState (pinchHandU 1) 1000).pinch
      = true
    exact pinchHandU_starts 1 _ rfl 1000
  show List.filter _ [0, 1] = [0, 1]
  rw [List.filter_cons, List.filter_cons, List.filter_nil]
  simp [h0, h1]

theorem C6_two_hand_suppresses_single_hand_witness :
    (UtilsCtl.processU witnessM UtilsCtl.initState [pinchHandU 0, pinchHandU 1] 1000).2.scene.rotate.x
      = 0 ∧
    (UtilsCtl.processU witnessM UtilsCtl.initState [pinchHandU 0, pinchHandU 1] 1000).2.scene.rotate.y
      = 0 ∧
    (UtilsCtl.processU witnessM UtilsCtl.initState [pinchHandU 0, pinchHandU 1] 1000).2.drawing.active
      = false ∧
    (UtilsCtl.processU witnessM UtilsCtl.initState [pinchHandU 0, pinchHandU 1] 1000).2.drawing.justStarted
      = false ∧
    (UtilsCtl.processU witnessM UtilsCtl.initState [pinchHandU 0, pinchHandU 1] 1000).2.drawing.justEnded
      = false :=
  C6_two_hand_suppresses_single_hand witnessM UtilsCtl.initState
    [pinchHandU 0, pinchHandU 1] 1000 0 1 pinchPairKeys

/-! ## Two-hand anchor seeding and frame-to-frame scale (claim C4) -/

namespace UtilsCtl

/-- With exactly two pinching hands, the emitted scene section and the new
session come from the two-hand branch applied to the analyzed states. -/
theorem processU_two_hand (m : JsMath) (s : CState) (hands : List Hand) (t : ℚ) (k1 k2 : ℕ)
    (hpk : pinchKeysOf (analyzeAll m s.handStates hands t) (hands.map (fun h => h.index))
        = [k1, k2]) :
    (processU m s hands t).2.scene
      = (twoHandPhase m (analyzeAll m s.handStates hands t) k1 k2 s.twoHandSession
          { initEvents s.tool with info := { pinchHands := 2 } }).2.scene ∧
    (processU m s hands t).1.twoHandSession
      = (twoHandPhase m (analyzeAll m s.handStates hands t) k1 k2 s.twoHandSession
          { initEvents s.tool with info := { pinchHands := 2 } }).1 := by
  unfold processU
  dsimp only
  rw [hpk]
  dsimp only
  constructor
  · show (List.foldl (globalStep t) _ _).ev.scene = _
    exact (foldl_globalStep_ev_drawing_scene t _ _).2
  · rfl

end UtilsCtl

/-- Claim C4: the first frame with exactly two pinching hands seeds the
anchor from the current inter-pinch distance/midpoint/angle and emits the
zero-delta (scale 1, zero translation, zero roll); on a later two-pinch
frame from anchor distance D0 the reported scale is D1/D0 where D1 is the
current distance, and the anchor is re-seeded to D1 (frame-to-frame, not
cumulative); on any frame with other than two pinching hands the anchor is
discarded (so re-entry re-seeds). -/
theorem C4_two_hand_anchor (m : JsMath) :
    (∀ (s : UtilsCtl.CState) (hands : List UtilsCtl.Hand) (t : ℚ) (k1 k2 : ℕ),
      UtilsCtl.pinchKeysOf (UtilsCtl.analyzeAll m s.handStates hands t)
          (hands.map (fun h => h.index)) = [k1, k2] →
      s.twoHandSession = none →
      (UtilsCtl.processU m s hands t).2.scene.scale = 1 ∧
      (UtilsCtl.processU m s hands t).2.scene.translate = ⟨0, 0⟩ ∧
      (UtilsCtl.processU m s hands t).2.scene.rotate.z = 0 ∧
      (UtilsCtl.processU m s hands t).1.twoHandSession
        = some ⟨distance2D m
            (UtilsCtl.lookupState (UtilsCtl.analyzeAll m s.handStates hands t) k1).indexTip
            (UtilsCtl.lookupState (UtilsCtl.analyzeAll m s.handStates hands t) k2).indexTip,
          ⟨((UtilsCtl.lookupState (UtilsCtl.analyzeAll m s.handStates hands t) k1).indexTip.x
              + (UtilsCtl.lookupState (UtilsCtl.analyzeAll m s.handStates hands t) k2).indexTip.x) / 2,
           ((UtilsCtl.lookupState (UtilsCtl.analyzeAll m s.handStates hands t) k1).indexTip.y
              + (UtilsCtl.lookupState (UtilsCtl.analyzeAll m s.handStates hands t) k2).indexTip.y) / 2⟩,
          m.atan2
            ((UtilsCtl.lookupState (UtilsCtl.analyzeAll m s.handStates hands t) k2).indexTip.y
              - (UtilsCtl.lookupState (UtilsCtl.analyzeAll m s.handStates hands t) k1).indexTip.y)
            ((UtilsCtl.lookupState (UtilsCtl.analyzeAll m s.handStates hands t) k2).indexTip.x
              - (UtilsCtl.lookupState (UtilsCtl.analyzeAll m s.handStates hands t) k1).indexTip.x)⟩) ∧
    (∀ (s : UtilsCtl.CState) (hands : List UtilsCtl.Hand) (t : ℚ) (k1 k2 : ℕ)
        (sess : UtilsCtl.Session),
      UtilsCtl.pinchKeysOf (UtilsCtl.analyzeAll m s.handStates hands t)
          (hands.map (fun h => h.index)) = [k1, k2] →
      s.twoHandSession = some sess →
      sess.baseDistance ≠ 0 →
      (UtilsCtl.processU m s hands t).2.scene.scale
        = distance2D m
            (UtilsCtl.lookupState (UtilsCtl.analyzeAll m s.handStates hands t) k1).indexTip
            (UtilsCtl.lookupState (UtilsCtl.analyzeAll m s.handStates hands t) k2).indexTip
          / sess.baseDistance ∧
      ∃ sess' : UtilsCtl.Session,
        (UtilsCtl.processU m s hands t).1.twoHandSession = some sess' ∧
        sess'.baseDistance
          = distance2D m
              (UtilsCtl.lookupState (UtilsCtl.analyzeAll m s.handStates hands t) k1).indexTip
              (UtilsCtl.lookupState (UtilsCtl.analyzeAll m s.handStates hands t) k2).indexTip) ∧
    (∀ (s : UtilsCtl.CState) (hands : List UtilsCtl.Hand) (t : ℚ),
      (UtilsCtl.pinchKeysOf (UtilsCtl.analyzeAll m s.handStates hands t)
          (hands.map (fun h => h.index))).length ≠ 2 →
      (UtilsCtl.processU m s hands t).1.twoHandSession = none) := by
  refine ⟨?_, ?_, ?_⟩
  · intro s hands t k1 k2 hpk hses
    obtain ⟨hs, ht⟩ := UtilsCtl.processU_two_hand m s hands t k1 k2 hpk
    rw [hses] at hs ht
    refine ⟨?_, ?_, ?_, ?_⟩
    · rw [hs]
      rfl
    · rw [hs]
      rfl
    · rw [hs]
      rfl
    · rw [ht]
      rfl
  · intro s hands t k1 k2 sess hpk hses _hbd
    obtain ⟨hs, ht⟩ := UtilsCtl.processU_two_hand m s hands t k1 k2 hpk
    rw [hses] at hs ht
    have ht2 : (UtilsCtl.processU m s hands t).1.twoHandSession
        = some ⟨distance2D m
            (UtilsCtl.lookupState (UtilsCtl.analyzeAll m s.handStates hands t) k1).indexTip
            (UtilsCtl.lookupState (UtilsCtl.analyzeAll m s.handStates hands t) k2).indexTip,
          ⟨((UtilsCtl.lookupState (UtilsCtl.analyzeAll m s.handStates hands t) k1).indexTip.x
              + (UtilsCtl.lookupState (UtilsCtl.analyzeAll m s.handStates hands t) k2).indexTip.x) / 2,
           ((UtilsCtl.lookupState (UtilsCtl.analyzeAll m s.handStates hands t) k1).indexTip.y
              + (UtilsCtl.lookupState (UtilsCtl.analyzeAll m s.handStates hands t) k2).indexTip.y) / 2⟩,
          m.atan2
            ((UtilsCtl.lookupState (UtilsCtl.analyzeAll m s.handStates hands t) k2).indexTip.y
              - (UtilsCtl.lookupState (UtilsCtl.analyzeAll m s.handStates hands t) k1).indexTip.y)
            ((UtilsCtl.lookupState (UtilsCtl.analyzeAll m s.handStates hands t) k2).indexTip.x
              - (UtilsCtl.lookupState (UtilsCtl.analyzeAll m s.handStates hands t) k1).indexTip.x)⟩ := by
      rw [ht]
      rfl
    refine ⟨?_, ⟨_, ht2, rfl⟩⟩
    rw [hs]
    rfl
  · intro s hands t hlen
    unfold UtilsCtl.processU
    dsimp only
    rcases hk : UtilsCtl.pinchKeysOf (UtilsCtl.analyzeAll m s.handStates hands t)
        (hands.map (fun h => h.index)) with - | ⟨a, - | ⟨b, - | ⟨c, rest⟩⟩⟩
    · rw [hk]
    · rw [hk]
    · rw [hk] at hlen
      simp at hlen
    · rw [hk]

/-- A controller state holding a two-hand anchor with reference distance 5. -/
def sessState : UtilsCtl.CState :=
  ⟨[], UtilsCtl.Tool.draw, some ⟨5, ⟨0, 0⟩, 0⟩, 0, 0, 0, 0⟩

theorem C4_two_hand_anchor_witness :
    (UtilsCtl.processU witnessM UtilsCtl.initState
        [pinchHandU 0, pinchHandU 1] 1000).2.scene.scale = 1 ∧
    (UtilsCtl.processU witnessM sessState
        [pinchHandU 0, pinchHandU 1] 1000).2.scene.scale
      = distance2D witnessM
          (UtilsCtl.lookupState (UtilsCtl.analyzeAll witnessM sessState.handStates
            [pinchHandU 0, pinchHandU 1] 1000) 0).indexTip
          (UtilsCtl.lookupState (UtilsCtl.analyzeAll witnessM sessState.handStates
            [pinchHandU 0, pinchHandU 1] 1000) 1).indexTip / (5 : ℚ) ∧
    (UtilsCtl.processU witnessM UtilsCtl.initState [] 0).1.twoHandSession = none :=
  ⟨((C4_two_hand_anchor witnessM).1 UtilsCtl.initState [pinchHandU 0, pinchHandU 1]
      1000 0 1 pinchPairKeys rfl).1,
   ((C4_two_hand_anchor witnessM).2.1 sessState [pinchHandU 0, pinchHandU 1]
      1000 0 1 ⟨5, ⟨0, 0⟩, 0⟩ pinchPairKeys rfl
      (by show (5 : ℚ) ≠ 0; norm_num)).1,
   (C4_two_hand_anchor witnessM).2.2 UtilsCtl.initState [] 0 (by decide)⟩

/-! ## Totality of the per-frame transformation (claim C7) -/

/-- A raw hand observation as the caller provides it: a tracking index and
a plain list of landmark points.  In JavaScript, reading a landmark beyond
the list's end yields `undefined` and the subsequent coordinate access
throws; the embedding checks the 21-landmark input contract up front and
is undefined (`none`) outside it. -/
structure JsHandRaw where
  index : ℕ
  landmarks : List Point

/-- Validate one raw observation against the 21-landmark contract. -/
def readHand (h : JsHandRaw) : Option UtilsCtl.Hand :=
  if hl : h.landmarks.length = 21 then
    some ⟨h.index, fun i => h.landmarks.get ⟨i.val, by rw [hl]; exact i.isLt⟩⟩
  else none

/-- `process` over raw observations: defined exactly when every hand
carries its 21 landmarks. -/
def processChecked (m : JsMath) (s : UtilsCtl.CState) (hands : List JsHandRaw) (t : ℚ) :
    Option (UtilsCtl.CState × UtilsCtl.Events) :=
  (hands.mapM readHand).map (fun hs => UtilsCtl.processU m s hs t)

theorem mapM_readHand_isSome :
    ∀ hands : List JsHandRaw, (∀ h ∈ hands, h.landmarks.length = 21) →
      ∃ hs, hands.mapM readHand = some hs := by
  intro hands
  induction hands with
  | nil => exact fun _ => ⟨[], rfl⟩
  | cons h rest ih =>
      intro h21
      obtain ⟨hs, hhs⟩ := ih (fun q hq => h21 q (List.mem_cons_of_mem _ hq))
      obtain ⟨hv, hhv⟩ : ∃ v, readHand h = some v := by
        rw [readHand, dif_pos (h21 h (List.mem_cons_self _ _))]
        exact ⟨_, rfl⟩
      exact ⟨hv :: hs, by rw [List.mapM_cons, hhv, hhs]; rfl⟩

/-- Claim C7: on every input in the contract's domain (at most two hands,
21 landmarks each, any timestamp) the engine returns a fully populated
bundle rather than failing; with no hands the bundle is the all-inactive
default (and the two-hand anchor is discarded). -/
theorem C7_always_returns_bundle (m : JsMath) (s : UtilsCtl.CState)
    (hands : List JsHandRaw) (t : ℚ)
    (_hlen : hands.length ≤ 2) (h21 : ∀ h ∈ hands, h.landmarks.length = 21) :
    (∃ out, processChecked m s hands t = some out) ∧
    (hands = [] →
      processChecked m s hands t
        = some (⟨s.handStates, s.tool, none, s.lastPanelsToggle, s.lastPauseToggle,
                 s.lastScreenshot, s.lastShapeSwipe⟩, UtilsCtl.initEvents s.tool)) := by
  constructor
  · obtain ⟨hs, hhs⟩ := mapM_readHand_isSome hands h21
    exact ⟨_, by rw [processChecked, hhs]; rfl⟩
  · intro he
    subst he
    rfl

theorem C7_always_returns_bundle_witness :
    (∃ out, processChecked witnessM UtilsCtl.initState
        [⟨0, List.replicate 21 ⟨0, 0, 0⟩⟩] 1000 = some out) ∧
    (([⟨0, List.replicate 21 (⟨0, 0, 0⟩ : Point)⟩] : List JsHandRaw) = [] →
      processChecked witnessM UtilsCtl.initState [⟨0, List.replicate 21 ⟨0, 0, 0⟩⟩] 1000
        = some (⟨UtilsCtl.initState.handStates, UtilsCtl.initState.tool, none,
                 UtilsCtl.initState.lastPanelsToggle, UtilsCtl.initState.lastPauseToggle,
                 UtilsCtl.initState.lastScreenshot, UtilsCtl.initState.lastShapeSwipe⟩,
                UtilsCtl.initEvents UtilsCtl.initState.tool)) :=
  C7_always_returns_bundle witnessM UtilsCtl.initState
    [⟨0, List.replicate 21 ⟨0, 0, 0⟩⟩] 1000 (by decide)
    (by
      intro h hh
      rw [List.mem_singleton] at hh
      subst hh
      decide)

/-! ## Determinism (claim C10) -/

/-- The frame-step execution relation of the controller: one constructor
per frame, stepping with `processU`. -/
inductive Exec (m : JsMath) : UtilsCtl.CState → List (List UtilsCtl.Hand × ℚ) →
    UtilsCtl.CState → List UtilsCtl.Events → Prop
  | nil (s : UtilsCtl.CState) : Exec m s [] s []
  | cons {s s1 sf : UtilsCtl.CState} {hands : List UtilsCtl.Hand} {t : ℚ}
      {rest : List (List UtilsCtl.Hand × ℚ)} {b : UtilsCtl.Events}
      {bs : List UtilsCtl.Events} :
      UtilsCtl.processU m s hands t = (s1, b) →
      Exec m s1 rest sf bs →
      Exec m s ((hands, t) :: rest) sf (b :: bs)

/-- Claim C10: the engine is deterministic — two executions from the same
state on the same frame sequence produce the same bundles and the same
final state — and every frame sequence is executable, with `runU` as the
function realizing the relation.  The step consumes only the frame's
observations and timestamp plus the explicit state: there is no other
input. -/
theorem C10_deterministic (m : JsMath) :
    (∀ (s sf1 sf2 : UtilsCtl.CState) (frames : List (List UtilsCtl.Hand × ℚ))
        (bs1 bs2 : List UtilsCtl.Events),
      Exec m s frames sf1 bs1 → Exec m s frames sf2 bs2 → sf1 = sf2 ∧ bs1 = bs2) ∧
    (∀ (s : UtilsCtl.CState) (frames : List (List UtilsCtl.Hand × ℚ)),
      Exec m s frames (UtilsCtl.runU m s frames).1 (UtilsCtl.runU m s frames).2) := by
  constructor
  · intro s sf1 sf2 frames bs1 bs2 h1 h2
    induction h1 generalizing sf2 bs2 with
    | nil =>
        cases h2
        exact ⟨rfl, rfl⟩
    | cons hp _ ih =>
        cases h2 with
        | cons hp2 hrest2 =>
            rw [hp] at hp2
            injection hp2 with e1 e2
            subst e1
            subst e2
            obtain ⟨hs, hb⟩ := ih _ _ hrest2
            exact ⟨hs, by rw [hb]⟩
  · intro s frames
    induction frames generalizing s with
    | nil => exact Exec.nil s
    | cons f rest ih =>
        obtain ⟨hands, t⟩ := f
        exact Exec.cons rfl (ih _)

theorem C10_deterministic_witness :
    (UtilsCtl.runU witnessM UtilsCtl.initState [([pinchHandU 0], 1000)]).1
      = (UtilsCtl.runU witnessM UtilsCtl.initState [([pinchHandU 0], 1000)]).1 ∧
    (UtilsCtl.runU witnessM UtilsCtl.initState [([pinchHandU 0], 1000)]).2
      = (UtilsCtl.runU witnessM UtilsCtl.initState [([pinchHandU 0], 1000)]).2 :=
  (C10_deterministic witnessM).1 UtilsCtl.initState _ _ [([pinchHandU 0], 1000)] _ _
    ((C10_deterministic witnessM).2 UtilsCtl.initState [([pinchHandU 0], 1000)])
    ((C10_deterministic witnessM).2 UtilsCtl.initState [([pinchHandU 0], 1000)])

/-! ## Global command cooldowns (claim C5) -/

namespace UtilsCtl

/-- The four rate-limited global command kinds. -/
inductive Kind
  | panels
  | pause
  | screenshot
  | shape
  deriving Repr, DecidableEq

/-- Each kind's cooldown window (ms), from the guards in `process`. -/
def window : Kind → ℚ
  | Kind.panels => 600
  | Kind.pause => 800
  | Kind.screenshot => 1500
  | Kind.shape => 600

/-- The controller's last-fired timestamp for a kind. -/
def lastFired (k : Kind) (s : CState) : ℚ :=
  match k with
  | Kind.panels => s.lastPanelsToggle
  | Kind.pause => s.lastPauseToggle
  | Kind.screenshot => s.lastScreenshot
  | Kind.shape => s.lastShapeSwipe

/-- The same, on the `forEach` accumulator. -/
def lastFiredA (k : Kind) (acc : GAcc) : ℚ :=
  match k with
  | Kind.panels => acc.lastPanelsToggle
  | Kind.pause => acc.lastPauseToggle
  | Kind.screenshot => acc.lastScreenshot
  | Kind.shape => acc.lastShapeSwipe

/-- Whether a bundle carries the kind's command. -/
def firedEv (k : Kind) (ev : Events) : Prop :=
  match k with
  | Kind.panels => ev.global.togglePanels = true
  | Kind.pause => ev.global.pauseCamera = true
  | Kind.screenshot => ev.global.screenshot = true
  | Kind.shape => ev.global.cycleShape ≠ none

instance (k : Kind) (ev : Events) : Decidable (firedEv k ev) := by
  cases k <;> (dsimp only [firedEv]; infer_instance)

/-- The kind's qualifying condition on an analyzed hand state (the branch
guard of `process` minus its cooldown conjunct). -/
def qualifies (k : Kind) (st : HandState) (t : ℚ) : Prop :=
  match k with
  | Kind.panels => st.isOpenPalm = true ∧ st.openPalmStart ≠ 0 ∧ t - st.openPalmStart > 200
  | Kind.pause => st.isFist = true
  | Kind.screenshot => st.thumbsUp = true
  | Kind.shape => st.isOpenPalm = true ∧ |st.swipeVelocity| > SWIPE_VELOCITY

/-- The full firing condition of one `forEach` iteration. -/
def fireCond (k : Kind) (st : HandState) (last t : ℚ) : Prop :=
  qualifies k st t ∧ t - last > window k

/-- The timestamps of the frames on which a run fires the kind's command. -/
def fireTimes (m : JsMath) (k : Kind) : CState → List (List Hand × ℚ) → List ℚ
  | _, [] => []
  | s, (hands, t) :: rest =>
      if firedEv k (processU m s hands t).2 then
        t :: fireTimes m k (processU m s hands t).1 rest
      else fireTimes m k (processU m s hands t).1 rest

/-- Every element keeps a gap greater than `w` from its predecessor (and
the first from `base`). -/
def SpacedFrom (w : ℚ) : ℚ → List ℚ → Prop
  | _, [] => True
  | base, t :: ts => t - base > w ∧ SpacedFrom w t ts

/-- One `forEach` iteration sets the kind's flag iff it was set or the
firing condition holds. -/
theorem globalStep_fired_iff (k : Kind) (t : ℚ) (acc : GAcc) (h : ℕ) :
    firedEv k (globalStep t acc h).ev ↔
      firedEv k acc.ev ∨ fireCond k (lookupState acc.states h) (lastFiredA k acc) t := by
  cases k
  case shape =>
    dsimp only [globalStep, firedEv, lastFiredA, fireCond, qualifies, window]
    by_cases hF : (lookupState acc.states h).isOpenPalm = true ∧
        |(lookupState acc.states h).swipeVelocity| > SWIPE_VELOCITY ∧
        t - acc.lastShapeSwipe > 600
    · rw [if_pos hF]
      exact iff_of_true (by simp) (Or.inr (by tauto))
    · rw [if_neg hF]
      constructor
      · exact fun hold => Or.inl hold
      · rintro (hold | hqc)
        · exact hold
        · exact absurd (by tauto) hF
  all_goals
    (dsimp only [globalStep, firedEv, lastFiredA, fireCond, qualifies, window]
     split_ifs with hF
     · exact iff_of_true (by simp) (Or.inr (by tauto))
     · constructor
       · exact fun hold => Or.inl hold
       · rintro (hold | hqc)
         · exact hold
         · exact absurd (by tauto) hF)

/-- Without a firing condition the kind's last-fired field is unchanged. -/
theorem globalStep_keep (k : Kind) (t : ℚ) (acc : GAcc) (h : ℕ)
    (hnc : ¬ fireCond k (lookupState acc.states h) (lastFiredA k acc) t) :
    lastFiredA k (globalStep t acc h) = lastFiredA k acc := by
  cases k
  all_goals dsimp only [globalStep, firedEv, lastFiredA, fireCond, qualifies, window] at hnc ⊢
  all_goals exact if_neg (fun hF => hnc (by tauto))

/-- On a firing condition the kind's last-fired field is stamped with the
frame timestamp. -/
theorem globalStep_set (k : Kind) (t : ℚ) (acc : GAcc) (h : ℕ)
    (hc : fireCond k (lookupState acc.states h) (lastFiredA k acc) t) :
    lastFiredA k (globalStep t acc h) = t := by
  cases k
  all_goals dsimp only [globalStep, firedEv, lastFiredA, fireCond, qualifies, window] at hc ⊢
  all_goals exact if_pos (by tauto)

theorem globalStep_inv (k : Kind) (t ℓ0 : ℚ) (acc : GAcc) (h : ℕ)
    (H : (¬ firedEv k acc.ev ∧ lastFiredA k acc = ℓ0) ∨
         (firedEv k acc.ev ∧ lastFiredA k acc = t ∧ t - ℓ0 > window k)) :
    (¬ firedEv k (globalStep t acc h).ev ∧ lastFiredA k (globalStep t acc h) = ℓ0) ∨
    (firedEv k (globalStep t acc h).ev ∧ lastFiredA k (globalStep t acc h) = t ∧
      t - ℓ0 > window k) := by
  have hiff := globalStep_fired_iff k t acc h
  by_cases hF : fireCond k (lookupState acc.states h) (lastFiredA k acc) t
  · right
    refine ⟨hiff.2 (Or.inr hF), globalStep_set k t acc h hF, ?_⟩
    rcases H with ⟨-, hl⟩ | ⟨-, -, hgt⟩
    · rw [hl] at hF
      exact hF.2
    · exact hgt
  · rcases H with ⟨hnf, hl⟩ | ⟨hf, hl, hgt⟩
    · exact Or.inl ⟨fun hfired => ((hiff.1 hfired).elim hnf hF),
        (globalStep_keep k t acc h hF).trans hl⟩
    · exact Or.inr ⟨hiff.2 (Or.inl hf), (globalStep_keep k t acc h hF).trans hl, hgt⟩

theorem foldl_globalStep_inv (k : Kind) (t ℓ0 : ℚ) (keys : List ℕ) :
    ∀ acc : GAcc,
      ((¬ firedEv k acc.ev ∧ lastFiredA k acc = ℓ0) ∨
       (firedEv k acc.ev ∧ lastFiredA k acc = t ∧ t - ℓ0 > window k)) →
      ((¬ firedEv k ((keys.foldl (globalStep t) acc)).ev ∧
         lastFiredA k (keys.foldl (globalStep t) acc) = ℓ0) ∨
       (firedEv k ((keys.foldl (globalStep t) acc)).ev ∧
         lastFiredA k (keys.foldl (globalStep t) acc) = t ∧ t - ℓ0 > window k)) := by
  induction keys with
  | nil => intro acc H; exact H
  | cons h rest ih => intro acc H; exact ih _ (globalStep_inv k t ℓ0 acc h H)

end UtilsCtl

namespace UtilsCtl

/-- `Map.set` then `Map.get` at the written key. -/
theorem lookupState_setState_self (l : List (ℕ × HandState)) (k : ℕ) (v : HandState) :
    lookupState (setState l k v) k = v := by
  induction l with
  | nil => simp [setState, lookupState, List.find?]
  | cons p rest ih =>
      by_cases hp : p.1 = k
      · simp [setState, hp, lookupState, List.find?]
      · have hb : (p.1 == k) = false := beq_eq_false_iff_ne.mpr hp
        simpa [setState, hp, lookupState, List.find?, hb] using ih

/-- `Map.set` leaves every other key's entry alone. -/
theorem lookupState_setState_ne (l : List (ℕ × HandState)) (k k' : ℕ) (v : HandState)
    (h : k' ≠ k) : lookupState (setState l k v) k' = lookupState l k' := by
  induction l with
  | nil =>
      have hb : (k == k') = false := beq_eq_false_iff_ne.mpr (Ne.symm h)
      simp [setState, lookupState, List.find?, hb]
  | cons p rest ih =>
      by_cases hp : p.1 = k
      · subst hp
        have hb : (p.1 == k') = false := beq_eq_false_iff_ne.mpr (fun he => h he.symm)
        simp [setState, lookupState, List.find?, hb]
      · by_cases hq : p.1 = k'
        · have hb : (p.1 == k') = true := beq_iff_eq.mpr hq
          simp [setState, hp, lookupState, List.find?, hb]
        · have hb : (p.1 == k') = false := beq_eq_false_iff_ne.mpr hq
          simpa [setState, hp, lookupState, List.find?, hb] using ih

/-- The hand-state fields read by the global-command guards. -/
def qualFields (st : HandState) : Bool × ℚ × ℚ × Bool × Bool :=
  (st.isOpenPalm, st.openPalmStart, st.swipeVelocity, st.isFist, st.thumbsUp)

theorem qualifies_congr (k : Kind) {a b : HandState} (h : qualFields a = qualFields b)
    (t : ℚ) : qualifies k a t ↔ qualifies k b t := by
  have h1 : a.isOpenPalm = b.isOpenPalm := congrArg (fun q => q.1) h
  have h2 : a.openPalmStart = b.openPalmStart := congrArg (fun q => q.2.1) h
  have h3 : a.swipeVelocity = b.swipeVelocity := congrArg (fun q => q.2.2.1) h
  have h4 : a.isFist = b.isFist := congrArg (fun q => q.2.2.2.1) h
  have h5 : a.thumbsUp = b.thumbsUp := congrArg (fun q => q.2.2.2.2) h
  cases k <;> simp [qualifies, h1, h2, h3, h4, h5]

/-- The one-pinch branch only touches the drawing/scene events. -/
theorem onePinchPhase_global (states : List (ℕ × HandState)) (k : ℕ) (ev : Events) :
    (onePinchPhase states k ev).2.global = ev.global := by
  unfold onePinchPhase
  dsimp only
  split_ifs <;> rfl

/-- The zero-pinch branch only touches the drawing events. -/
theorem zeroPinchPhase_global (keys : List ℕ) :
    ∀ (states : List (ℕ × HandState)) (ev : Events),
      (zeroPinchPhase states keys ev).2.global = ev.global := by
  induction keys with
  | nil => intro states ev; rfl
  | cons k rest ih =>
      intro states ev
      unfold zeroPinchPhase
      rw [List.foldl_cons]
      dsimp only
      by_cases hc : (lookupState states k).lastPinchPosition.isSome = true
      · rw [if_pos hc]
        exact ih (setState states k { lookupState states k with lastPinchPosition := none })
          { ev with drawing := { ev.drawing with justEnded := true } }
      · rw [if_neg hc]
        exact ih states ev

/-- The two-hand branch only touches the scene events. -/
theorem twoHandPhase_global (m : JsMath) (states : List (ℕ × HandState)) (k1 k2 : ℕ)
    (session : Option Session) (ev : Events) :
    (twoHandPhase m states k1 k2 session ev).2.global = ev.global := by
  cases session <;> rfl

/-- The bundle built at the top of `process` carries no global command. -/
theorem firedEv_init (k : Kind) (tool : Tool) (i : InfoEv) :
    ¬ firedEv k { initEvents tool with info := i } := by
  cases k <;> simp [firedEv, initEvents]

theorem firedEv_congr {k : Kind} {ev ev' : Events} (h : ev.global = ev'.global) :
    firedEv k ev ↔ firedEv k ev' := by
  cases k <;> simp [firedEv, h]

/-- The final tool stamp does not alter the global flags. -/
theorem fired_assembled (k : Kind) (acc : GAcc) :
    firedEv k { acc.ev with drawing := { acc.ev.drawing with tool := acc.tool } } ↔
      firedEv k acc.ev := by
  cases k <;> exact Iff.rfl

/-- Reading a kind's last-fired stamp off the reassembled controller state. -/
theorem lastFired_assembled (k : Kind) (acc : GAcc) (sess : Option Session) :
    lastFired k ⟨acc.states, acc.tool, sess, acc.lastPanelsToggle, acc.lastPauseToggle,
      acc.lastScreenshot, acc.lastShapeSwipe⟩ = lastFiredA k acc := by
  cases k <;> rfl

/-- The one-pinch branch does not change any global-guard field. -/
theorem onePinchPhase_qualFields (states : List (ℕ × HandState)) (k : ℕ) (ev : Events)
    (k' : ℕ) :
    qualFields (lookupState (onePinchPhase states k ev).1 k')
      = qualFields (lookupState states k') := by
  unfold onePinchPhase
  dsimp only
  by_cases hk : k' = k
  · subst hk
    rw [lookupState_setState_self]
    split_ifs <;> rfl
  · rw [lookupState_setState_ne states k k' _ hk]

/-- The zero-pinch branch does not change any global-guard field. -/
theorem zeroPinchPhase_qualFields (keys : List ℕ) :
    ∀ (states : List (ℕ × HandState)) (ev : Events) (k' : ℕ),
      qualFields (lookupState (zeroPinchPhase states keys ev).1 k')
        = qualFields (lookupState states k') := by
  induction keys with
  | nil => intro states ev k'; rfl
  | cons k rest ih =>
      intro states ev k'
      unfold zeroPinchPhase
      rw [List.foldl_cons]
      dsimp only
      by_cases hc : (lookupState states k).lastPinchPosition.isSome = true
      · rw [if_pos hc]
        have h2 : qualFields (lookupState (setState states k
              { lookupState states k with lastPinchPosition := none }) k')
            = qualFields (lookupState states k') := by
          by_cases hk : k' = k
          · subst hk
            rw [lookupState_setState_self]
            rfl
          · rw [lookupState_setState_ne states k k' _ hk]
        exact (ih (setState states k { lookupState states k with lastPinchPosition := none })
          { ev with drawing := { ev.drawing with justEnded := true } } k').trans h2
      · rw [if_neg hc]
        exact ih states ev k'

end UtilsCtl

namespace UtilsCtl

/-- Every frame either leaves a kind's command unfired with its last-fired
stamp unchanged, or fires it, stamps the frame time, and the elapsed time
since the previous stamp beat the kind's window. -/
theorem processU_inv (m : JsMath) (k : Kind) (s : CState) (hands : List Hand) (t : ℚ) :
    (¬ firedEv k (processU m s hands t).2 ∧
       lastFired k (processU m s hands t).1 = lastFired k s) ∨
    (firedEv k (processU m s hands t).2 ∧
       lastFired k (processU m s hands t).1 = t ∧
       t - lastFired k s > window k) := by
  unfold processU
  dsimp only
  rcases hpk : pinchKeysOf (analyzeAll m s.handStates hands t) (hands.map (fun h => h.index))
    with _ | ⟨k1, _ | ⟨k2, _ | ⟨k3, krest⟩⟩⟩
  · rw [hpk]
    dsimp only
    rw [fired_assembled, lastFired_assembled]
    refine foldl_globalStep_inv k t (lastFired k s) (hands.map (fun h => h.index)) _
      (Or.inl ⟨?_, ?_⟩)
    · exact fun hf => firedEv_init k s.tool _
        ((firedEv_congr (zeroPinchPhase_global (hands.map (fun h => h.index))
          (analyzeAll m s.handStates hands t) _)).1 hf)
    · cases k <;> rfl
  · rw [hpk]
    dsimp only
    rw [fired_assembled, lastFired_assembled]
    refine foldl_globalStep_inv k t (lastFired k s) (hands.map (fun h => h.index)) _
      (Or.inl ⟨?_, ?_⟩)
    · exact fun hf => firedEv_init k s.tool _
        ((firedEv_congr (onePinchPhase_global (analyzeAll m s.handStates hands t) k1 _)).1 hf)
    · cases k <;> rfl
  · rw [hpk]
    dsimp only
    rw [fired_assembled, lastFired_assembled]
    refine foldl_globalStep_inv k t (lastFired k s) (hands.map (fun h => h.index)) _
      (Or.inl ⟨?_, ?_⟩)
    · exact fun hf => firedEv_init k s.tool _
        ((firedEv_congr (twoHandPhase_global m (analyzeAll m s.handStates hands t) k1 k2
          s.twoHandSession _)).1 hf)
    · cases k <;> rfl
  · rw [hpk]
    dsimp only
    rw [fired_assembled, lastFired_assembled]
    refine foldl_globalStep_inv k t (lastFired k s) (hands.map (fun h => h.index)) _
      (Or.inl ⟨?_, ?_⟩)
    · exact fun hf => firedEv_init k s.tool _ hf
    · cases k <;> rfl

/-- A fired global flag survives the rest of the `forEach` loop. -/
theorem foldl_fired_mono (k : Kind) (t : ℚ) (keys : List ℕ) :
    ∀ acc : GAcc, firedEv k acc.ev →
      firedEv k ((keys.foldl (globalStep t) acc)).ev := by
  induction keys with
  | nil => exact fun acc h => h
  | cons h rest ih =>
      intro acc hf
      rw [List.foldl_cons]
      exact ih _ ((globalStep_fired_iff k t acc h).2 (Or.inl hf))

/-- If some key in the loop qualifies while the kind's cooldown has
elapsed, the loop fires the command. -/
theorem foldl_fires (k : Kind) (t : ℚ) (keys : List ℕ) :
    ∀ (acc : GAcc) (k' : ℕ), k' ∈ keys →
      qualifies k (lookupState acc.states k') t →
      t - lastFiredA k acc > window k →
      firedEv k ((keys.foldl (globalStep t) acc)).ev := by
  induction keys with
  | nil => intro acc k' hmem _ _; exact absurd hmem (List.not_mem_nil k')
  | cons h rest ih =>
      intro acc k' hmem hq hcool
      rw [List.foldl_cons]
      by_cases hfired : firedEv k (globalStep t acc h).ev
      · exact foldl_fired_mono k t rest _ hfired
      · have hiff := globalStep_fired_iff k t acc h
        have hnc : ¬ fireCond k (lookupState acc.states h) (lastFiredA k acc) t :=
          fun hc => hfired (hiff.2 (Or.inr hc))
        by_cases hkh : k' = h
        · subst hkh
          exact absurd (hiff.2 (Or.inr ⟨hq, hcool⟩)) hfired
        · have hmem' : k' ∈ rest := by
            rcases List.mem_cons.mp hmem with h1 | h1
            · exact absurd h1 hkh
            · exact h1
          refine ih (globalStep t acc h) k' hmem' ?_ ?_
          · have hl : lookupState (globalStep t acc h).states k'
                = lookupState acc.states k' := by
              show lookupState (setState acc.states h _) k' = lookupState acc.states k'
              exact lookupState_setState_ne acc.states h k' _ hkh
            rw [hl]
            exact hq
          · rw [globalStep_keep k t acc h hnc]
            exact hcool

/-- A frame carrying a qualifying hand whose kind's cooldown has elapsed
fires the command. -/
theorem processU_fires (m : JsMath) (k : Kind) (s : CState) (hands : List Hand) (t : ℚ)
    (k' : ℕ) (hmem : k' ∈ hands.map (fun h => h.index))
    (hq : qualifies k (lookupState (analyzeAll m s.handStates hands t) k') t)
    (hcool : t - lastFired k s > window k) :
    firedEv k (processU m s hands t).2 := by
  unfold processU
  dsimp only
  rcases hpk : pinchKeysOf (analyzeAll m s.handStates hands t) (hands.map (fun h => h.index))
    with _ | ⟨k1, _ | ⟨k2, _ | ⟨k3, krest⟩⟩⟩
  · rw [hpk]
    dsimp only
    rw [fired_assembled]
    refine foldl_fires k t (hands.map (fun h => h.index)) _ k' hmem ?_ ?_
    · exact (qualifies_congr k (zeroPinchPhase_qualFields (hands.map (fun h => h.index))
        (analyzeAll m s.handStates hands t)
        { initEvents s.tool with info := { pinchHands := 0 } } k') t).2 hq
    · cases k <;> exact hcool
  · rw [hpk]
    dsimp only
    rw [fired_assembled]
    refine foldl_fires k t (hands.map (fun h => h.index)) _ k' hmem ?_ ?_
    · exact (qualifies_congr k (onePinchPhase_qualFields
        (analyzeAll m s.handStates hands t) k1
        { initEvents s.tool with info := { pinchHands := 1 } } k') t).2 hq
    · cases k <;> exact hcool
  · rw [hpk]
    dsimp only
    rw [fired_assembled]
    refine foldl_fires k t (hands.map (fun h => h.index)) _ k' hmem ?_ ?_
    · exact hq
    · cases k <;> exact hcool
  · rw [hpk]
    dsimp only
    rw [fired_assembled]
    refine foldl_fires k t (hands.map (fun h => h.index)) _ k' hmem ?_ ?_
    · exact hq
    · cases k <;> exact hcool

/-- Along any run, consecutive firings of one command kind are separated
by more than the kind's cooldown window (the first from the stored
last-fired stamp). -/
theorem fireTimes_spaced (m : JsMath) (k : Kind) :
    ∀ (frames : List (List Hand × ℚ)) (s : CState),
      SpacedFrom (window k) (lastFired k s) (fireTimes m k s frames) := by
  intro frames
  induction frames with
  | nil => intro s; exact trivial
  | cons f rest ih =>
      intro s
      obtain ⟨hands, t⟩ := f
      rw [fireTimes]
      rcases processU_inv m k s hands t with ⟨hnf, hl⟩ | ⟨hf, hl, hgt⟩
      · rw [if_neg hnf, ← hl]
        exact ih _
      · rw [if_pos hf]
        show t - lastFired k s > window k ∧
          SpacedFrom (window k) t (fireTimes m k (processU m s hands t).1 rest)
        have hrest := ih (processU m s hands t).1
        rw [hl] at hrest
        exact ⟨hgt, hrest⟩

end UtilsCtl

/-- Claim C5: for every global command kind (panel toggle, camera pause,
screenshot, shape cycle) and every frame sequence, the timestamps at which
the controller fires that command are each more than the kind's cooldown
window after the previous firing (and the first more than the window after
the stored last-fired stamp), so a second qualifying occurrence inside the
window is silently dropped; and any frame carrying a hand that qualifies
for the command once more than the window has elapsed since the last
firing does fire it again. -/
theorem C5_global_cooldowns (m : JsMath) :
    (∀ (k : UtilsCtl.Kind) (frames : List (List UtilsCtl.Hand × ℚ)) (s : UtilsCtl.CState),
        UtilsCtl.SpacedFrom (UtilsCtl.window k) (UtilsCtl.lastFired k s)
          (UtilsCtl.fireTimes m k s frames)) ∧
    (∀ (k : UtilsCtl.Kind) (s : UtilsCtl.CState) (hands : List UtilsCtl.Hand) (t : ℚ)
        (k' : ℕ), k' ∈ hands.map (fun h => h.index) →
        UtilsCtl.qualifies k
          (UtilsCtl.lookupState (UtilsCtl.analyzeAll m s.handStates hands t) k') t →
        t - UtilsCtl.lastFired k s > UtilsCtl.window k →
        UtilsCtl.firedEv k (UtilsCtl.processU m s hands t).2) :=
  ⟨fun k frames s => UtilsCtl.fireTimes_spaced m k frames s,
   fun k s hands t k' hmem hq hcool =>
     UtilsCtl.processU_fires m k s hands t k' hmem hq hcool⟩

/-- A hand with all landmarks at the origin: its normalized mean fingertip
spread is `0` under `witnessM`, so it analyzes as a fist. -/
def fistHandU : UtilsCtl.Hand := ⟨0, fun _ => ⟨0, 0, 0⟩⟩

theorem C5_global_cooldowns_witness :
    UtilsCtl.firedEv UtilsCtl.Kind.pause
      (UtilsCtl.processU witnessM UtilsCtl.initState [fistHandU] 1000).2 :=
  (C5_global_cooldowns witnessM).2 UtilsCtl.Kind.pause UtilsCtl.initState [fistHandU] 1000 0
    (by decide)
    (by
      show (UtilsCtl.analyzeHandState witnessM UtilsCtl.initHandState fistHandU 1000).isFist
        = true
      show decide (UtilsCtl.distanceAvgOf witnessM fistHandU < UtilsCtl.FIST_THRESHOLD) = true
      rw [decide_eq_true_eq]
      have e : ∀ i : Fin 21, fistHandU.landmarks i = ⟨0, 0, 0⟩ := fun _ => rfl
      norm_num [UtilsCtl.distanceAvgOf, UtilsCtl.referenceSpan, UtilsCtl.TIP_INDEXES,
        distance2D, witnessM, UtilsCtl.FIST_THRESHOLD, e, List.map, List.foldl, List.length])
    (by norm_num [UtilsCtl.lastFired, UtilsCtl.initState, UtilsCtl.window])
